import Mathlib

/-!
Streaming WAL: message model and WAL adaptor

A shallow embedding of

* `pkg/streaming/util/message/message_impl.go` (namespace `Message`), and
* `internal/streamingnode/server/wal/adaptor/wal_adaptor.go` (namespace `Adaptor`),

followed by the properties established about them.

Conventions.  A Go method with a pointer receiver that mutates its receiver
becomes a function from the receiver's value to an outcome carrying the
receiver's value afterwards.  A Go `panic` is an explicit outcome, never a
missing result.  A Go pair `(result, error)` with exactly one side non-nil is
an `Except`.  Each call is followed on its own, from the adaptor state it
starts in to the state it leaves; a call that cannot proceed (a `select` with
no case able to fire, a wait on a counter that is not zero) has the outcome
`blocked`.  What the call depends on outside the adaptor (the state of the
context, the choice of the runtime at a `select`, the answer of the scanner
registry) is an argument.  The worker pool is private to the adaptor and is
part of its state.
-/

namespace Message

/-! ## Declarations of package `message` that `message_impl.go` uses -/

/-- Modelled from the spec: the property bag `propertiesImpl`, whose declaration
is not part of `message_impl.go`.  The spec describes it as an ordered mapping
with unique string keys; it is kept as a list of key/value entries in which a
key occurs at most once when built through `Set`. -/
structure propertiesImpl where
  entries : List (String × String)
deriving DecidableEq, Repr

/-- Modelled from the spec: `Get(key)` of the property bag, the value stored
under `key` together with the "found" flag (`none` when the key is absent). -/
def propertiesImpl.Get (p : propertiesImpl) (key : String) : Option String :=
  (p.entries.find? (fun e => e.1 == key)).map (fun e => e.2)

/-- Modelled from the spec: `Exist(key)` of the property bag. -/
def propertiesImpl.Exist (p : propertiesImpl) (key : String) : Bool :=
  (p.Get key).isSome

/-- Auxiliary of `propertiesImpl.Set`: overwrite the entry of `key`, or add one
at the end when there is none. -/
def setEntry (key value : String) : List (String × String) → List (String × String)
  | [] => [(key, value)]
  | e :: rest => if e.1 == key then (key, value) :: rest else e :: setEntry key value rest

/-- Modelled from the spec: `Set(key, value)` of the property bag (a Go map
assignment: the key keeps a single entry, holding the new value). -/
def propertiesImpl.Set (p : propertiesImpl) (key value : String) : propertiesImpl :=
  { entries := setEntry key value p.entries }

/-- The declarations of package `message` that `message_impl.go` refers to but
does not contain: the four property-key and sentinel constants, the time-tick
codec, and the `MessageID` interface (methods `WALName`, `Marshal`) with the
package-level `UnmarshalMessageID`.  `ID` is the type of message ids.  A Go
`(value, error)` result is an `Except` whose error side is the error text. -/
structure Decls (ID : Type) where
  messageVChannel : String
  messageTimeTick : String
  messageLastConfirmed : String
  messageLastConfirmedValueUseMessageID : String
  EncodeUint64 : Nat → String
  DecodeUint64 : String → Except String Nat
  WALName : ID → String
  Marshal : ID → String
  UnmarshalMessageID : String → String → Except String ID

/-! ## `message_impl.go` -/

/-- The Go struct `messageImpl`: payload bytes and the property bag. -/
structure messageImpl where
  payload : List Nat
  properties : propertiesImpl
deriving DecidableEq, Repr

/-- The Go struct `immutableMessageImpl`: an embedded `messageImpl` and the id. -/
structure immutableMessageImpl (ID : Type) extends messageImpl where
  id : ID

/-- Outcome of a call of a mutating method on a `*messageImpl`: either the call
returns (the setters return the receiver itself) or it panics.  In both cases
`m` is the value of the receiver when the call ends. -/
inductive SetOutcome where
  | returned (m : messageImpl)
  | panicked (reason : String) (m : messageImpl)
deriving DecidableEq, Repr

/-- The receiver's value when the call ends. -/
def SetOutcome.state : SetOutcome → messageImpl
  | .returned m => m
  | .panicked _ m => m

/-- Whether the call panicked. -/
def SetOutcome.aborted : SetOutcome → Bool
  | .returned _ => false
  | .panicked _ _ => true

/-- `WithVChannel` sets the virtual channel of the message. -/
def WithVChannel {ID : Type} (d : Decls ID) (m : messageImpl) (vChannel : String) : SetOutcome :=
  if m.properties.Exist d.messageVChannel then
    .panicked "vchannel already set in properties of message" m
  else
    .returned { m with properties := m.properties.Set d.messageVChannel vChannel }

/-- `WithTimeTick` sets the time tick of the message (`tt` is a `uint64`). -/
def WithTimeTick {ID : Type} (d : Decls ID) (m : messageImpl) (tt : Nat) : SetOutcome :=
  if m.properties.Exist d.messageTimeTick then
    .panicked "time tick already set in properties of message" m
  else
    .returned { m with properties := m.properties.Set d.messageTimeTick (d.EncodeUint64 tt) }

/-- `WithLastConfirmed` sets the last confirmed message id of the message. -/
def WithLastConfirmed {ID : Type} (d : Decls ID) (m : messageImpl) (id : ID) : SetOutcome :=
  if m.properties.Exist d.messageLastConfirmed then
    .panicked "last confirmed message already set in properties of message" m
  else
    .returned { m with properties := m.properties.Set d.messageLastConfirmed (d.Marshal id) }

/-- `WithLastConfirmedUseMessageID` sets the last confirmed message id to be
the message id itself.  The Go body has no `Exist` test. -/
def WithLastConfirmedUseMessageID {ID : Type} (d : Decls ID) (m : messageImpl) : SetOutcome :=
  .returned { m with
    properties := m.properties.Set d.messageLastConfirmed d.messageLastConfirmedValueUseMessageID }

/-- `IntoImmutableMessage` copies the message and binds the id. -/
def IntoImmutableMessage {ID : Type} (m : messageImpl) (id : ID) : immutableMessageImpl ID :=
  { m with id := id }

/-- `TimeTick` reads the time tick; the error side is a panic and carries the
panic text (without the rendering of the dirty value). -/
def TimeTick {ID : Type} (d : Decls ID) (m : messageImpl) : Except String Nat :=
  match m.properties.Get d.messageTimeTick with
  | none => .error "there's a bug in the message codes, timetick lost in properties of message"
  | some value =>
    match d.DecodeUint64 value with
    | .error _ => .error "there's a bug in the message codes, dirty timetick in properties of message"
    | .ok tt => .ok tt

/-- `VChannel` reads the virtual channel; empty when the property is absent. -/
def VChannel {ID : Type} (d : Decls ID) (m : messageImpl) : String :=
  match m.properties.Get d.messageVChannel with
  | none => ""
  | some value => value

/-- `MessageID` returns the id bound by `IntoImmutableMessage`. -/
def MessageID {ID : Type} (m : immutableMessageImpl ID) : ID :=
  m.id

/-- `LastConfirmedMessageID`; the error side is a panic and carries the panic
text (without the rendering of the id). -/
def LastConfirmedMessageID {ID : Type} (d : Decls ID) (m : immutableMessageImpl ID) :
    Except String ID :=
  match m.properties.Get d.messageLastConfirmed with
  | none =>
    .error "there's a bug in the message codes, last confirmed message lost in properties of message"
  | some value =>
    if value = d.messageLastConfirmedValueUseMessageID then
      .ok (MessageID m)
    else
      match d.UnmarshalMessageID (d.WALName m.id) value with
      | .error _ =>
        .error "there's a bug in the message codes, dirty last confirmed message in properties of message"
      | .ok id => .ok id

/-! ## Concrete inputs used to evaluate the model -/

/-- Decimal rendering of a number, the time-tick codec of `sampleDecls`. -/
def encodeDecimal (n : Nat) : String :=
  String.mk (Nat.toDigits 10 n)

/-- Reading of a decimal rendering; any other text is an error. -/
def decodeDecimal (s : String) : Except String Nat :=
  if s.data.all Char.isDigit && !s.data.isEmpty then
    .ok (s.data.foldl (fun acc c => acc * 10 + (c.toNat - 48)) 0)
  else
    .error "invalid syntax"

/-- A concrete instance of the declarations `message_impl.go` depends on, used
to evaluate the model: ids are strings that marshal to themselves. -/
def sampleDecls : Decls String where
  messageVChannel := "_vc"
  messageTimeTick := "_tt"
  messageLastConfirmed := "_lc"
  messageLastConfirmedValueUseMessageID := "use_message_id"
  EncodeUint64 := encodeDecimal
  DecodeUint64 := decodeDecimal
  WALName := fun _ => "rmq"
  Marshal := fun id => id
  UnmarshalMessageID := fun _ value => .ok value

/-- A message with payload and no property. -/
def sampleEmpty : messageImpl :=
  { payload := [1, 2, 3], properties := { entries := [] } }

/-- A message whose last-confirmed property is already set (to the id "7"). -/
def sampleConfirmed : messageImpl :=
  { payload := [1, 2, 3], properties := { entries := [("_lc", "7")] } }

end Message

namespace Adaptor

open Message

/-! ## Collaborators of the adaptor that `wal_adaptor.go` uses -/

/-- Modelled from the spec: the error values seen by the adaptor: the shutdown
status error it builds itself with `status.NewOnShutdownError` (package
`status` is not among the sources), and any other error value, produced by a
collaborator (context, interceptor chain, backend, scanner registry) and never
inspected by the adaptor. -/
inductive Error where
  | OnShutdown (msg : String)
  | other (text : String)
deriving DecidableEq, Repr

/-- Modelled from the spec: `wal.AppendResult`, declared in package `wal`: the
message id and the further fields that interceptors may add or overwrite.  The
composite literal `AppendResult{MessageID: id}` leaves `Extra` empty. -/
structure AppendResult (ID : Type) where
  MessageID : ID
  Extra : List (String × String)
deriving DecidableEq, Repr

/-- Modelled from the spec: the states of the lifetime guard (package
`lifetime` is not among the sources). -/
inductive State where
  | Working
  | Stopped
  | Closed
deriving DecidableEq, Repr

/-- Modelled from the spec: the lifetime guard, a state and the counter of
outstanding (admitted, unfinished) operations. -/
structure Lifetime where
  state : State
  counter : Nat
deriving DecidableEq, Repr

/-- Modelled from the spec: `NewLifetime(state)`. -/
def Lifetime.NewLifetime (s : State) : Lifetime :=
  { state := s, counter := 0 }

/-- Modelled from the spec: `Add(IsWorking)` admits one operation iff the state
is `Working` (flag `true`, counter incremented) and otherwise fails (flag
`false`, guard unchanged). -/
def Lifetime.Add (l : Lifetime) : Bool × Lifetime :=
  if l.state = State.Working then (true, { l with counter := l.counter + 1 }) else (false, l)

/-- Modelled from the spec: `Done()` releases one admission. -/
def Lifetime.Done (l : Lifetime) : Lifetime :=
  { l with counter := l.counter - 1 }

/-- Modelled from the spec: `SetState(s)` halts admission without blocking. -/
def Lifetime.SetState (l : Lifetime) (s : State) : Lifetime :=
  { l with state := s }

/-- Modelled from the spec: `Close()` moves the guard to `Closed`. -/
def Lifetime.Close (l : Lifetime) : Lifetime :=
  { l with state := State.Closed }

/-- Modelled from the spec: `wal.ReadOption`, the position a scanner starts
from (earliest, latest, or a prior id), kept as text. -/
structure ReadOption where
  DeliverPolicy : String
deriving DecidableEq, Repr

/-- A snapshot of the caller's `context.Context` at the moment it is looked at:
`err = some e` iff `ctx.Done()` is closed, and then `ctx.Err()` is `e`. -/
structure Context where
  err : Option Error
deriving DecidableEq, Repr

/-- Ghost trace: the calls the adaptor makes on its collaborators and the
lifecycle transitions it performs, in the order they happen.  Admissions are
not events; they are counted by `Lifetime.counter` and recorded, one by one, in
the log of `Admission`s. -/
inductive Event (ID : Type) where
  | SetState (s : State)
  | Wait
  | LifetimeClose
  | Select
  | DoAppend (msg : messageImpl)
  | InnerAppend (msg : messageImpl)
  | Unwrap (i : Nat)
  | Callback (r : Except Error (AppendResult ID))
  | Submit (accepted : Bool)
  | AllocateScannerName
  | Allocate (id : Int)
  | ScannerClose (id : Int)
  | InnerClose
  | InterceptorClose
  | PoolFree
  | Cleanup

/-- The Go function type `func(ctx, msg) (MessageID, error)` of an append step
(`walimpls.WALImpls.Append`, and the continuation handed to an interceptor).
It may extend the trace. -/
abbrev AppendFn (ID : Type) :=
  Context → messageImpl → List (Event ID) → Except Error ID × List (Event ID)

/-- Modelled from the spec: the backend `walimpls.WALImpls`, reduced to its
append: the result may depend on the message and on what happened before. -/
structure WALImpls (ID : Type) where
  appendResult : messageImpl → List (Event ID) → Except Error ID

/-- The backend method `Append`, recording its own invocation in the trace. -/
def WALImpls.Append {ID : Type} (inner : WALImpls ID) : AppendFn ID :=
  fun _ctx msg tr => (inner.appendResult msg tr, tr ++ [Event.InnerAppend msg])

/-- Modelled from the spec: an interceptor.  `DoAppend(ctx, msg, append)` wraps
the next append step; `Ready` tells whether its readiness signal has resolved
when it is looked at; `UnwrapMessageID` is `some hook` exactly when the
interceptor also implements `InterceptorWithUnwrapMessageID`. -/
structure Interceptor (ID : Type) where
  DoAppend : Context → messageImpl → AppendFn ID → List (Event ID) → Except Error ID × List (Event ID)
  Ready : Bool
  UnwrapMessageID : Option (AppendResult ID → AppendResult ID)

/-- Modelled from the spec: `interceptors.InterceptorBuildParam`; the lazily
resolved handle to the adaptor itself is left out. -/
structure InterceptorBuildParam (ID : Type) where
  WALImpls : WALImpls ID

/-- Modelled from the spec: `interceptors.InterceptorBuilder`. -/
structure InterceptorBuilder (ID : Type) where
  Build : InterceptorBuildParam ID → Interceptor ID

/-- Modelled from the spec: `interceptors.InterceptorWithReady`, what the
adaptor sees of the chain. -/
structure InterceptorWithReady (ID : Type) where
  DoAppend : Context → messageImpl → AppendFn ID → List (Event ID) → Except Error ID × List (Event ID)
  Ready : Bool

/-- Modelled from the spec: the append of a chain, composed in registration
order with the given append step innermost. -/
def chainDoAppend {ID : Type} : List (Interceptor ID) → Context → messageImpl → AppendFn ID →
    List (Event ID) → Except Error ID × List (Event ID)
  | [], ctx, msg, append => append ctx msg
  | i :: rest, ctx, msg, append =>
    i.DoAppend ctx msg (fun ctx1 msg1 => chainDoAppend rest ctx1 msg1 append)

/-- Modelled from the spec: `interceptors.NewChainedInterceptor`; the chain is
ready when every member is. -/
def NewChainedInterceptor {ID : Type} (is : List (Interceptor ID)) : InterceptorWithReady ID :=
  { DoAppend := chainDoAppend is, Ready := is.all (fun i => i.Ready) }

/-- Modelled from the spec: `typeutil.ConcurrentMap[int64, V]`, a list of
entries with distinct keys. -/
structure ConcurrentMap (V : Type) where
  entries : List (Int × V)
deriving DecidableEq, Repr

/-- Modelled from the spec: `NewConcurrentMap`. -/
def ConcurrentMap.NewConcurrentMap {V : Type} : ConcurrentMap V :=
  { entries := [] }

/-- Modelled from the spec: `Get(key)`. -/
def ConcurrentMap.Get {V : Type} (m : ConcurrentMap V) (key : Int) : Option V :=
  (m.entries.find? (fun e => e.1 == key)).map (fun e => e.2)

/-- Modelled from the spec: `Insert(key, value)` adds the entry; a key already
present keeps its entry. -/
def ConcurrentMap.Insert {V : Type} (m : ConcurrentMap V) (key : Int) (value : V) :
    ConcurrentMap V :=
  if m.entries.any (fun e => e.1 == key) then m else { entries := m.entries ++ [(key, value)] }

/-- Modelled from the spec: `Remove(key)` deletes the entry of `key`, if any. -/
def ConcurrentMap.Remove {V : Type} (m : ConcurrentMap V) (key : Int) : ConcurrentMap V :=
  { entries := m.entries.filter (fun e => !(e.1 == key)) }

/-- Modelled from the spec: `typeutil.IDAllocator`, an atomic `int64` counter. -/
structure IDAllocator where
  underlying : Int
deriving DecidableEq, Repr

/-- Reduction of an integer to the `int64` range (two's complement). -/
def toInt64 (x : Int) : Int :=
  (x + 2 ^ 63) % 2 ^ 64 - 2 ^ 63

/-- Modelled from the spec: `Allocate()` increments the counter and returns the
new value. -/
def IDAllocator.Allocate (a : IDAllocator) : Int × IDAllocator :=
  (toInt64 (a.underlying + 1), { underlying := toInt64 (a.underlying + 1) })

/-- Modelled from the spec: the scanner built by `newScannerAdaptor(name, inner,
opts, cleanup)`.  The cleanup closure `func() { w.scanners.Remove(id) }` is kept
by the variable it captures, the id; `scannerAdaptor.runCleanup` is its body. -/
structure scannerAdaptor where
  name : String
  opts : ReadOption
  cleanup : Int
deriving DecidableEq, Repr

/-- The case of the `select` in `Append` that fired: `<-ctx.Done()`, and then
`ctx.Err()` is `err`, or `<-Ready()`. -/
inductive SelectCase where
  | ctxDone (err : Error)
  | ready
deriving DecidableEq, Repr

/-- Go `select` without default over `<-ctx.Done()` and `<-Ready()`: blocks
(`none`) while neither can proceed; when both can, one is chosen by the
runtime (`pick`). -/
def select (ctx : Context) (ready pick : Bool) : Option SelectCase :=
  match ctx.err, ready with
  | none, false => none
  | some e, false => some (SelectCase.ctxDone e)
  | none, true => some SelectCase.ready
  | some e, true => some (if pick then SelectCase.ctxDone e else SelectCase.ready)

/-- Outcome of a call that may block: it returned `value`, or it is blocked;
`state` is the adaptor when the call returned, respectively while it waits. -/
inductive Outcome (σ α : Type) where
  | returned (value : α) (state : σ)
  | blocked (state : σ)

/-- Ghost record of one call on the counter of the lifetime guard: an `Add`
that admitted its caller, or a `Done`. -/
inductive Admission where
  | Add
  | Done
deriving DecidableEq, Repr

/-- The closure submitted by `AppendAsync`, kept by the message it captures. -/
structure AsyncTask where
  msg : messageImpl
deriving DecidableEq, Repr

/-- Modelled from the spec: the worker pool `conc.Pool` (package `conc` is not
among the sources): the tasks it has taken, in order, and whether it has been
released. -/
structure Pool where
  accepted : List AsyncTask
  released : Bool
deriving DecidableEq, Repr

/-- Modelled from the spec: `conc.NewPool(10)`, a pool with default options. -/
def Pool.NewPool : Pool :=
  { accepted := [], released := false }

/-- Modelled from the spec: `Submit(task)`.  With default options the pool
queues what exceeds its capacity and does not reject; the flag tells whether
the task was taken.  A pool that has been released is taken to refuse the
task, the one way such a pool can reject: the task is dropped and never run. -/
def Pool.Submit (p : Pool) (task : AsyncTask) : Bool × Pool :=
  if p.released then (false, p) else (true, { p with accepted := p.accepted ++ [task] })

/-- Modelled from the spec: `Free()` releases the pool. -/
def Pool.Free (p : Pool) : Pool :=
  { p with released := true }

/-! ## `wal_adaptor.go` -/

/-- The Go struct `interceptorBuildResult`.  `UnwrapMessageIDFunc` mutates the
result it is given and, as a ghost effect, records each hook it applies. -/
structure interceptorBuildResult (ID : Type) where
  Interceptor : InterceptorWithReady ID
  UnwrapMessageIDFunc : AppendResult ID → List (Event ID) → AppendResult ID × List (Event ID)

/-- `buildInterceptor`: build every interceptor, collect the unwrap hooks of
those that have one, chain the interceptors.  Each collected hook is paired with
the position of its interceptor among the built ones (ghost, for the trace). -/
def buildInterceptor {ID : Type} (builders : List (InterceptorBuilder ID))
    (param : InterceptorBuildParam ID) : interceptorBuildResult ID :=
  let builtIterceptors : List (Interceptor ID) :=
    builders.foldl (fun built b => built ++ [b.Build param]) []
  let unwrapMessageIDFuncs : List (Nat × (AppendResult ID → AppendResult ID)) :=
    builtIterceptors.enum.foldl
      (fun funcs ki =>
        match ki.2.UnwrapMessageID with
        | some r => funcs ++ [(ki.1, r)]
        | none => funcs)
      []
  { Interceptor := NewChainedInterceptor builtIterceptors
    UnwrapMessageIDFunc := fun result tr =>
      unwrapMessageIDFuncs.foldl (fun acc kf => (kf.2 acc.1, acc.2 ++ [Event.Unwrap kf.1]))
        (result, tr) }

/-- The Go struct `walAdaptorImpl` as a state: the fields the methods read and
write, the ghost trace, and the ghost log of the admissions taken and released.
The scanner registry and the cleanup hook appear through the events of the
calls made on them. -/
structure walAdaptorImpl (ID : Type) where
  lifetime : Lifetime
  idAllocator : IDAllocator
  inner : WALImpls ID
  appendExecutionPool : Pool
  interceptorBuildResult : interceptorBuildResult ID
  scanners : ConcurrentMap scannerAdaptor
  trace : List (Event ID)
  admissions : List Admission

/-- `adaptImplsToWAL` creates the adaptor. -/
def adaptImplsToWAL {ID : Type} (basicWAL : WALImpls ID) (builders : List (InterceptorBuilder ID)) :
    walAdaptorImpl ID :=
  { lifetime := Lifetime.NewLifetime State.Working
    idAllocator := { underlying := 0 }
    inner := basicWAL
    appendExecutionPool := Pool.NewPool
    interceptorBuildResult := buildInterceptor builders { WALImpls := basicWAL }
    scanners := ConcurrentMap.NewConcurrentMap
    trace := []
    admissions := [] }

/-- Append one event to the trace. -/
def walAdaptorImpl.log {ID : Type} (w : walAdaptorImpl ID) (e : Event ID) : walAdaptorImpl ID :=
  { w with trace := w.trace ++ [e] }

/-- The adaptor after a call `w.lifetime.Add(lifetime.IsWorking)` that admitted
its caller. -/
def walAdaptorImpl.admit {ID : Type} (w : walAdaptorImpl ID) : walAdaptorImpl ID :=
  { w with lifetime := w.lifetime.Add.2, admissions := w.admissions ++ [Admission.Add] }

/-- The deferred call `w.lifetime.Done()`. -/
def walAdaptorImpl.done {ID : Type} (w : walAdaptorImpl ID) : walAdaptorImpl ID :=
  { w with lifetime := w.lifetime.Done, admissions := w.admissions ++ [Admission.Done] }

/-- `Append` writes a record to the log.  `ctx` is the state of the caller's
context and `pick` the choice of the runtime at the `select`. -/
def walAdaptorImpl.Append {ID : Type} (w : walAdaptorImpl ID) (ctx : Context) (pick : Bool)
    (msg : messageImpl) : Outcome (walAdaptorImpl ID) (Except Error (AppendResult ID)) :=
  if w.lifetime.Add.1 = false then
    .returned (.error (Error.OnShutdown "wal is on shutdown")) w
  else
    let w1 := w.admit.log Event.Select
    match select ctx w1.interceptorBuildResult.Interceptor.Ready pick with
    | none => .blocked w1
    | some (SelectCase.ctxDone err) => .returned (.error err) w1.done
    | some SelectCase.ready =>
      let out := w1.interceptorBuildResult.Interceptor.DoAppend ctx msg w1.inner.Append
        (w1.trace ++ [Event.DoAppend msg])
      match out.1 with
      | .error err => .returned (.error err) ({ w1 with trace := out.2 }).done
      | .ok messageID =>
        let r := w1.interceptorBuildResult.UnwrapMessageIDFunc
          { MessageID := messageID, Extra := [] } out.2
        .returned (.ok r.1) ({ w1 with trace := r.2 }).done

/-- `AppendAsync` writes a record to the log asynchronously.  The future that
`Submit` returns is discarded: the adaptor goes on in the same way whether the
pool took the task or not. -/
def walAdaptorImpl.AppendAsync {ID : Type} (w : walAdaptorImpl ID) (msg : messageImpl) :
    walAdaptorImpl ID :=
  if w.lifetime.Add.1 = false then
    w.log (Event.Callback (.error (Error.OnShutdown "wal is on shutdown")))
  else
    let w1 := w.admit
    let submitted := w1.appendExecutionPool.Submit { msg := msg }
    ({ w1 with appendExecutionPool := submitted.2 }).log (Event.Submit submitted.1)

/-- The body of the closure submitted by `AppendAsync`, run by a pool worker on
the adaptor as it is then; `ctx` and `pick` are as for `Append`. -/
def walAdaptorImpl.runAsyncTask {ID : Type} (w : walAdaptorImpl ID) (ctx : Context) (pick : Bool)
    (task : AsyncTask) : Outcome (walAdaptorImpl ID) Unit :=
  match w.Append ctx pick task.msg with
  | .blocked w1 => .blocked w1
  | .returned r w1 => .returned () (w1.log (Event.Callback r)).done

/-- The body of a scanner's cleanup closure: `w.scanners.Remove(id)`. -/
def scannerAdaptor.runCleanup {ID : Type} (s : scannerAdaptor) (w : walAdaptorImpl ID) :
    walAdaptorImpl ID :=
  { w with scanners := w.scanners.Remove s.cleanup }

/-- `Read` returns a scanner.  `name` is what `AllocateScannerName()` answers. -/
def walAdaptorImpl.Read {ID : Type} (w : walAdaptorImpl ID) (name : Except Error String)
    (opts : ReadOption) : Except Error scannerAdaptor × walAdaptorImpl ID :=
  if w.lifetime.Add.1 = false then
    (.error (Error.OnShutdown "wal is on shutdown"), w)
  else
    let w1 := w.admit.log Event.AllocateScannerName
    match name with
    | .error err => (.error err, w1.done)
    | .ok name =>
      let id := w1.idAllocator.Allocate
      let s : scannerAdaptor := { name := name, opts := opts, cleanup := id.1 }
      let w2 := ({ w1 with idAllocator := id.2 }).log (Event.Allocate id.1)
      (.ok s, ({ w2 with scanners := w2.scanners.Insert id.1 s }).done)

/-- Modelled from the spec: `Close()` of a scanner, as called by the adaptor:
the call is recorded and the scanner's cleanup closure runs. -/
def scannerAdaptor.Close {ID : Type} (id : Int) (s : scannerAdaptor) (w : walAdaptorImpl ID) :
    walAdaptorImpl ID :=
  s.runCleanup (w.log (Event.ScannerClose id))

/-- The part of `Close` that follows `w.lifetime.Wait()`, run on the adaptor as
it is when the wait ends. -/
def walAdaptorImpl.closeAfterWait {ID : Type} (w : walAdaptorImpl ID) : walAdaptorImpl ID :=
  let w2 := w.log Event.Wait
  let w3 := ({ w2 with lifetime := w2.lifetime.Close }).log Event.LifetimeClose
  let w4 := w3.scanners.entries.foldl (fun acc e => scannerAdaptor.Close e.1 e.2 acc) w3
  let w5 := w4.log Event.InnerClose
  let w6 := w5.log Event.InterceptorClose
  let w7 := ({ w6 with appendExecutionPool := w6.appendExecutionPool.Free }).log Event.PoolFree
  w7.log Event.Cleanup

/-- `Close` tears the adaptor down.  `lifetime.Wait()` returns only when the
counter is zero; while it is not, the call is blocked there. -/
def walAdaptorImpl.Close {ID : Type} (w : walAdaptorImpl ID) : Outcome (walAdaptorImpl ID) Unit :=
  let w1 := ({ w with lifetime := w.lifetime.SetState State.Stopped }).log
    (Event.SetState State.Stopped)
  if w1.lifetime.counter ≠ 0 then
    .blocked w1
  else
    .returned () w1.closeAfterWait

/-- The adaptor when the call returned, respectively while it is blocked. -/
def Outcome.state {σ α : Type} : Outcome σ α → σ
  | .returned _ s => s
  | .blocked s => s

/-- The adaptor states that calls of the methods can produce, starting from
`adaptImplsToWAL`: after any `Append`, `AppendAsync`, `Read` or `Close`
(returned or blocked), after a pool worker ran a submitted closure, after a
scanner's cleanup closure ran, and after a `Close` blocked at the wait went on
once the counter had drained. -/
inductive Reachable {ID : Type} : walAdaptorImpl ID → Prop where
  | adaptImplsToWAL (basicWAL : WALImpls ID) (builders : List (InterceptorBuilder ID)) :
    Reachable (adaptImplsToWAL basicWAL builders)
  | Append (w : walAdaptorImpl ID) (ctx : Context) (pick : Bool) (msg : messageImpl) :
    Reachable w → Reachable (w.Append ctx pick msg).state
  | AppendAsync (w : walAdaptorImpl ID) (msg : messageImpl) :
    Reachable w → Reachable (w.AppendAsync msg)
  | runAsyncTask (w : walAdaptorImpl ID) (ctx : Context) (pick : Bool) (task : AsyncTask) :
    Reachable w → Reachable (w.runAsyncTask ctx pick task).state
  | Read (w : walAdaptorImpl ID) (name : Except Error String) (opts : ReadOption) :
    Reachable w → Reachable (w.Read name opts).2
  | runCleanup (w : walAdaptorImpl ID) (s : scannerAdaptor) :
    Reachable w → Reachable (s.runCleanup w)
  | Close (w : walAdaptorImpl ID) :
    Reachable w → Reachable w.Close.state
  | closeAfterWait (w : walAdaptorImpl ID) :
    Reachable w → w.lifetime.state = State.Stopped → w.lifetime.counter = 0 →
    Reachable w.closeAfterWait

/-! ## Concrete inputs used to evaluate the model -/

/-- Whether an event is a backend append. -/
def Event.isInnerAppend {ID : Type} : Event ID → Bool
  | Event.InnerAppend _ => true
  | _ => false

/-- A backend that assigns sequential ids 1, 2, 3, ... to its appends. -/
def sequentialWAL : WALImpls Nat :=
  { appendResult := fun _ tr => .ok ((tr.filter Event.isInnerAppend).length + 1) }

/-- A backend whose appends fail. -/
def failingWAL : WALImpls Nat :=
  { appendResult := fun _ _ => .error (Error.other "disk full") }

/-- A builder of an interceptor that forwards the append, is ready, and has no
unwrap hook. -/
def forwardBuilder : InterceptorBuilder Nat :=
  { Build := fun _ =>
      { DoAppend := fun ctx msg append => append ctx msg, Ready := true, UnwrapMessageID := none } }

/-- A builder of an interceptor that forwards the append, is ready, and whose
unwrap hook sets the message id of the result to `a`. -/
def rewriteBuilder (a : Nat) : InterceptorBuilder Nat :=
  { Build := fun _ =>
      { DoAppend := fun ctx msg append => append ctx msg
        Ready := true
        UnwrapMessageID := some (fun r => { r with MessageID := a }) } }

/-- A builder of an interceptor that forwards the append, has no unwrap hook,
and is not ready yet. -/
def replayingBuilder : InterceptorBuilder Nat :=
  { Build := fun _ =>
      { DoAppend := fun ctx msg append => append ctx msg, Ready := false, UnwrapMessageID := none } }

/-- A context that is not cancelled. -/
def background : Context :=
  { err := none }

/-- A cancelled context. -/
def cancelled : Context :=
  { err := some (Error.other "context canceled") }

/-- A message to append. -/
def sampleMsg : messageImpl :=
  { payload := [104, 105], properties := { entries := [] } }

/-- A scanner tracked under id 1 in `stoppedWAL` and `trackingWAL`. -/
def sampleScanner : scannerAdaptor :=
  { name := "ch/1/1", opts := { DeliverPolicy := "earliest" }, cleanup := 1 }

/-- A fresh adaptor over the sequential backend: id-rewriting interceptors 10
and 20 around an interceptor without hook. -/
def workingWAL : walAdaptorImpl Nat :=
  adaptImplsToWAL sequentialWAL [rewriteBuilder 10, forwardBuilder, rewriteBuilder 20]

/-- A fresh adaptor with two interceptors: the hook of the first sets the id to
10, the hook of the second sets it to 20. -/
def twoHookWAL : walAdaptorImpl Nat :=
  adaptImplsToWAL sequentialWAL [rewriteBuilder 10, rewriteBuilder 20]

/-- A fresh adaptor over the sequential backend without interceptors. -/
def plainWAL : walAdaptorImpl Nat :=
  adaptImplsToWAL sequentialWAL []

/-- A fresh adaptor over the failing backend. -/
def brokenWAL : walAdaptorImpl Nat :=
  adaptImplsToWAL failingWAL [rewriteBuilder 10]

/-- A fresh adaptor one of whose interceptors is not ready. -/
def replayingWAL : walAdaptorImpl Nat :=
  adaptImplsToWAL sequentialWAL [forwardBuilder, replayingBuilder]

/-- An adaptor that tracks two scanners, under ids 1 and 2, with no operation
outstanding. -/
def trackingWAL : walAdaptorImpl Nat :=
  { plainWAL with
    idAllocator := { underlying := 2 }
    scanners := { entries := [(1, sampleScanner), (2, { sampleScanner with name := "ch/1/2", cleanup := 2 })] } }

/-- An adaptor whose lifetime guard has left `Working`, with one operation
still outstanding and one scanner tracked. -/
def stoppedWAL : walAdaptorImpl Nat :=
  { plainWAL with
    lifetime := { state := State.Stopped, counter := 1 }
    idAllocator := { underlying := 1 }
    scanners := { entries := [(1, sampleScanner)] }
    trace := [Event.SetState State.Stopped] }

end Adaptor

/-! # Properties of the message model -/

namespace Message

theorem Get_setEntry_same (key value : String) (es : List (String × String)) :
    ((setEntry key value es).find? (fun e => e.1 == key)).map (fun e => e.2) = some value := by
  induction es with
  | nil => simp [setEntry]
  | cons e rest ih =>
    obtain ⟨k, v⟩ := e
    by_cases h : k = key
    · simp [setEntry, h]
    · simp [setEntry, h, List.find?_cons, ih]

theorem Get_setEntry_other (key value other : String) (hne : other ≠ key)
    (es : List (String × String)) :
    ((setEntry key value es).find? (fun e => e.1 == other)).map (fun e => e.2)
      = (es.find? (fun e => e.1 == other)).map (fun e => e.2) := by
  induction es with
  | nil => simp [setEntry, List.find?_cons, Ne.symm hne]
  | cons e rest ih =>
    obtain ⟨k, v⟩ := e
    by_cases h : k = key
    · subst h
      simp [setEntry, List.find?_cons, Ne.symm hne]
    · by_cases h3 : k = other
      · subst h3
        simp [setEntry, h, List.find?_cons]
      · simp [setEntry, h, List.find?_cons, h3, ih]

theorem Get_Set_same (p : propertiesImpl) (key value : String) :
    (p.Set key value).Get key = some value := by
  simp [propertiesImpl.Set, propertiesImpl.Get, Get_setEntry_same]

theorem Get_Set_other (p : propertiesImpl) (key value other : String) (hne : other ≠ key) :
    (p.Set key value).Get other = p.Get other := by
  simp only [propertiesImpl.Set, propertiesImpl.Get]
  exact Get_setEntry_other key value other hne p.entries

theorem Get_of_not_Exist (p : propertiesImpl) (key : String) (h : p.Exist key = false) :
    p.Get key = none := by
  simpa [propertiesImpl.Exist] using h

/-- The three setters that test `Exist` first: when the property they write is
already present they panic and leave the message as it was. -/
theorem guarded_setters_abort {ID : Type} (d : Decls ID) (m : messageImpl) :
    (∀ v, m.properties.Exist d.messageVChannel = true →
      (WithVChannel d m v).aborted = true ∧ (WithVChannel d m v).state = m) ∧
    (∀ tt, m.properties.Exist d.messageTimeTick = true →
      (WithTimeTick d m tt).aborted = true ∧ (WithTimeTick d m tt).state = m) ∧
    (∀ id, m.properties.Exist d.messageLastConfirmed = true →
      (WithLastConfirmed d m id).aborted = true ∧ (WithLastConfirmed d m id).state = m) := by
  refine ⟨?_, ?_, ?_⟩
  · intro v h
    simp [WithVChannel, h, SetOutcome.aborted, SetOutcome.state]
  · intro tt h
    simp [WithTimeTick, h, SetOutcome.aborted, SetOutcome.state]
  · intro id h
    simp [WithLastConfirmed, h, SetOutcome.aborted, SetOutcome.state]

/-- C1, evaluated where it fails: on the message obtained by
`WithLastConfirmed "7"`, whose last-confirmed property is therefore set, a
second `WithLastConfirmed` panics and leaves the message as it was, while
`WithLastConfirmedUseMessageID` returns and has overwritten the property with
the sentinel. -/
theorem WithLastConfirmedUseMessageID_overwrites :
    WithLastConfirmed sampleDecls sampleEmpty "7" = SetOutcome.returned sampleConfirmed ∧
    sampleConfirmed.properties.Exist sampleDecls.messageLastConfirmed = true ∧
    WithLastConfirmed sampleDecls sampleConfirmed "9"
      = SetOutcome.panicked "last confirmed message already set in properties of message"
          sampleConfirmed ∧
    WithLastConfirmedUseMessageID sampleDecls sampleConfirmed
      = SetOutcome.returned
          { payload := [1, 2, 3], properties := { entries := [("_lc", "use_message_id")] } } ∧
    (WithLastConfirmedUseMessageID sampleDecls sampleConfirmed).aborted = false ∧
    (WithLastConfirmedUseMessageID sampleDecls sampleConfirmed).state ≠ sampleConfirmed := by
  decide

/-- C3: set-then-read round trip.  On a message without time tick,
`WithTimeTick tt` returns and `TimeTick` then reads `tt` (given that
`DecodeUint64` inverts `EncodeUint64` at `tt`), the vchannel read being
unchanged; on a message without vchannel, `WithVChannel v` returns and
`VChannel` then reads `v`, the time-tick read being unchanged; `VChannel`
reads the empty string when the property is absent, and `TimeTick` panics when
its property is absent. -/
theorem set_then_read_round_trip {ID : Type} (d : Decls ID) (m : messageImpl) (tt : Nat)
    (v : String) (hkeys : d.messageVChannel ≠ d.messageTimeTick) (htt : tt < 2 ^ 64)
    (hcodec : d.DecodeUint64 (d.EncodeUint64 tt) = .ok tt) :
    (m.properties.Exist d.messageTimeTick = false →
      ∃ m1, WithTimeTick d m tt = SetOutcome.returned m1 ∧ TimeTick d m1 = .ok tt ∧
        VChannel d m1 = VChannel d m) ∧
    (m.properties.Exist d.messageVChannel = false →
      ∃ m1, WithVChannel d m v = SetOutcome.returned m1 ∧ VChannel d m1 = v ∧
        TimeTick d m1 = TimeTick d m) ∧
    (m.properties.Exist d.messageVChannel = false → VChannel d m = "") ∧
    (m.properties.Exist d.messageTimeTick = false →
      TimeTick d m
        = .error "there's a bug in the message codes, timetick lost in properties of message") := by
  have _ := htt
  refine ⟨?_, ?_, ?_, ?_⟩
  · intro h
    refine ⟨{ m with properties := m.properties.Set d.messageTimeTick (d.EncodeUint64 tt) },
      by simp [WithTimeTick, h], ?_, ?_⟩
    · simp [TimeTick, Get_Set_same, hcodec]
    · simp [VChannel, Get_Set_other _ _ _ _ hkeys]
  · intro h
    refine ⟨{ m with properties := m.properties.Set d.messageVChannel v },
      by simp [WithVChannel, h], ?_, ?_⟩
    · simp [VChannel, Get_Set_same]
    · simp [TimeTick, Get_Set_other _ _ _ _ (Ne.symm hkeys)]
  · intro h
    simp [VChannel, Get_of_not_Exist _ _ h]
  · intro h
    simp [TimeTick, Get_of_not_Exist _ _ h]

/-- Witness of `set_then_read_round_trip`: the empty sample message, time tick
42 and vchannel "by-dev-dml_0". -/
theorem set_then_read_round_trip_witness :
    (∃ m1, WithTimeTick sampleDecls sampleEmpty 42 = SetOutcome.returned m1 ∧
        TimeTick sampleDecls m1 = .ok 42 ∧ VChannel sampleDecls m1 = VChannel sampleDecls sampleEmpty) ∧
    (∃ m1, WithVChannel sampleDecls sampleEmpty "by-dev-dml_0" = SetOutcome.returned m1 ∧
        VChannel sampleDecls m1 = "by-dev-dml_0" ∧
        TimeTick sampleDecls m1 = TimeTick sampleDecls sampleEmpty) ∧
    VChannel sampleDecls sampleEmpty = "" ∧
    TimeTick sampleDecls sampleEmpty
      = .error "there's a bug in the message codes, timetick lost in properties of message" :=
  have h := set_then_read_round_trip sampleDecls sampleEmpty 42 "by-dev-dml_0"
    (by decide) (by decide) (by rfl)
  ⟨h.1 (by decide), h.2.1 (by decide), h.2.2.1 (by decide), h.2.2.2 (by decide)⟩

/-- C2 as stated fails: with ids that marshal to themselves (so that
`UnmarshalMessageID` inverts `Marshal`), `WithLastConfirmed` of the id whose
marshalled form is the sentinel text, followed by `IntoImmutableMessage "1"`,
makes `LastConfirmedMessageID` return "1", not the id that was set. -/
theorem LastConfirmedMessageID_sentinel_collision :
    (∀ c : String, sampleDecls.UnmarshalMessageID (sampleDecls.WALName "1") (sampleDecls.Marshal c)
      = .ok c) ∧
    sampleEmpty.properties.Exist sampleDecls.messageLastConfirmed = false ∧
    WithLastConfirmed sampleDecls sampleEmpty "use_message_id"
      = SetOutcome.returned
          { payload := [1, 2, 3], properties := { entries := [("_lc", "use_message_id")] } } ∧
    LastConfirmedMessageID sampleDecls
      (IntoImmutableMessage
        { payload := [1, 2, 3], properties := { entries := [("_lc", "use_message_id")] } } "1")
      = .ok "1" ∧
    LastConfirmedMessageID sampleDecls
      (IntoImmutableMessage
        { payload := [1, 2, 3], properties := { entries := [("_lc", "use_message_id")] } } "1")
      ≠ .ok "use_message_id" := by
  refine ⟨fun _ => rfl, by decide, by decide, by rfl, ?_⟩
  intro h
  have h2 : (Except.ok "1" : Except String String) = .ok "use_message_id" := by
    rw [← h]; rfl
  injection h2 with h3
  exact absurd h3 (by decide)

/-- C2, amended: `MessageID` returns the bound id; `LastConfirmedMessageID`
returns the bound id when the property holds the sentinel (in particular after
`WithLastConfirmedUseMessageID`), otherwise the id decoded from the stored
text, panicking when the property is absent or undecodable; and after
`WithLastConfirmed c` it returns `c`, given that `UnmarshalMessageID` inverts
`Marshal` at `c` for the WAL name of the bound id and that the marshalled form
of `c` is not the sentinel text. -/
theorem LastConfirmedMessageID_spec {ID : Type} (d : Decls ID) (m : messageImpl) (id c : ID)
    (hinv : d.UnmarshalMessageID (d.WALName id) (d.Marshal c) = .ok c)
    (hsent : d.Marshal c ≠ d.messageLastConfirmedValueUseMessageID)
    (hfresh : m.properties.Exist d.messageLastConfirmed = false) :
    MessageID (IntoImmutableMessage m id) = id ∧
    (∀ m0 : messageImpl,
      m0.properties.Get d.messageLastConfirmed = some d.messageLastConfirmedValueUseMessageID →
      LastConfirmedMessageID d (IntoImmutableMessage m0 id) = .ok id) ∧
    (∀ m0 : messageImpl, ∃ m1, WithLastConfirmedUseMessageID d m0 = SetOutcome.returned m1 ∧
      LastConfirmedMessageID d (IntoImmutableMessage m1 id) = .ok id) ∧
    (∀ (m0 : messageImpl) (value : String) (x : ID),
      m0.properties.Get d.messageLastConfirmed = some value →
      value ≠ d.messageLastConfirmedValueUseMessageID →
      d.UnmarshalMessageID (d.WALName id) value = .ok x →
      LastConfirmedMessageID d (IntoImmutableMessage m0 id) = .ok x) ∧
    (∃ m1, WithLastConfirmed d m c = SetOutcome.returned m1 ∧
      LastConfirmedMessageID d (IntoImmutableMessage m1 id) = .ok c) ∧
    (∀ m0 : messageImpl, m0.properties.Get d.messageLastConfirmed = none →
      ∃ reason, LastConfirmedMessageID d (IntoImmutableMessage m0 id) = .error reason) ∧
    (∀ (m0 : messageImpl) (value e : String),
      m0.properties.Get d.messageLastConfirmed = some value →
      value ≠ d.messageLastConfirmedValueUseMessageID →
      d.UnmarshalMessageID (d.WALName id) value = .error e →
      ∃ reason, LastConfirmedMessageID d (IntoImmutableMessage m0 id) = .error reason) := by
  refine ⟨rfl, ?_, ?_, ?_, ?_, ?_, ?_⟩
  · intro m0 h
    simp [LastConfirmedMessageID, IntoImmutableMessage, h, MessageID]
  · intro m0
    refine ⟨_, rfl, ?_⟩
    simp [LastConfirmedMessageID, IntoImmutableMessage, Get_Set_same, MessageID]
  · intro m0 value x h hne hx
    simp [LastConfirmedMessageID, IntoImmutableMessage, h, hne, hx]
  · refine ⟨{ m with properties := m.properties.Set d.messageLastConfirmed (d.Marshal c) },
      by simp [WithLastConfirmed, hfresh], ?_⟩
    simp [LastConfirmedMessageID, IntoImmutableMessage, Get_Set_same, hsent, hinv]
  · intro m0 h
    simp [LastConfirmedMessageID, IntoImmutableMessage, h]
  · intro m0 value e h hne he
    simp [LastConfirmedMessageID, IntoImmutableMessage, h, hne, he]

/-- Witness of `LastConfirmedMessageID_spec`: the empty sample message, bound
id "12" and last-confirmed id "7". -/
theorem LastConfirmedMessageID_spec_witness :
    ∃ m1, WithLastConfirmed sampleDecls sampleEmpty "7" = SetOutcome.returned m1 ∧
      LastConfirmedMessageID sampleDecls (IntoImmutableMessage m1 "12") = .ok "7" :=
  (LastConfirmedMessageID_spec sampleDecls sampleEmpty "12" "7" rfl (by decide)
    (by decide)).2.2.2.2.1

end Message

/-! # Properties of the WAL adaptor -/

namespace Adaptor

open Message

theorem Add_of_working (l : Lifetime) (h : l.state = State.Working) :
    l.Add = (true, { l with counter := l.counter + 1 }) := by
  simp [Lifetime.Add, h]

theorem Add_of_not_working (l : Lifetime) (h : l.state ≠ State.Working) : l.Add = (false, l) := by
  simp [Lifetime.Add, h]

/-- An `Append` that is not admitted returns the shutdown error and leaves the
adaptor as it was. -/
theorem Append_of_not_working {ID : Type} (w : walAdaptorImpl ID) (ctx : Context) (pick : Bool)
    (msg : messageImpl) (hleft : w.lifetime.state ≠ State.Working) :
    w.Append ctx pick msg
      = Outcome.returned (.error (Error.OnShutdown "wal is on shutdown")) w := by
  simp [walAdaptorImpl.Append, Add_of_not_working w.lifetime hleft]

/-- C4: once the lifetime guard has left `Working`, `Append` returns the
shutdown error and leaves the adaptor exactly as it was (so the trace has no
`Select`, `DoAppend` or `InnerAppend` event and the counter is unchanged);
`AppendAsync` invokes the callback with the shutdown error, submits no task
(the pool is as it was) and changes nothing else; `Read` returns the shutdown
error and leaves the adaptor exactly as it was (no name or id allocated,
tracking map unchanged). -/
theorem entry_points_after_shutdown {ID : Type} (w : walAdaptorImpl ID) (ctx : Context)
    (pick : Bool) (msg : messageImpl) (name : Except Error String) (opts : ReadOption)
    (hleft : w.lifetime.state ≠ State.Working) :
    w.Append ctx pick msg
      = Outcome.returned (.error (Error.OnShutdown "wal is on shutdown")) w ∧
    (w.AppendAsync msg).appendExecutionPool = w.appendExecutionPool ∧
    (w.AppendAsync msg).trace
      = w.trace ++ [Event.Callback (.error (Error.OnShutdown "wal is on shutdown"))] ∧
    (w.AppendAsync msg).lifetime = w.lifetime ∧
    (w.AppendAsync msg).admissions = w.admissions ∧
    (w.AppendAsync msg).scanners = w.scanners ∧
    (w.AppendAsync msg).idAllocator = w.idAllocator ∧
    w.Read name opts = (.error (Error.OnShutdown "wal is on shutdown"), w) := by
  have hadd := Add_of_not_working w.lifetime hleft
  refine ⟨Append_of_not_working w ctx pick msg hleft, ?_, ?_, ?_, ?_, ?_, ?_, ?_⟩ <;>
    simp [walAdaptorImpl.AppendAsync, walAdaptorImpl.Read, hadd, walAdaptorImpl.log]

/-- Witness of `entry_points_after_shutdown`: the stopped sample adaptor. -/
theorem entry_points_after_shutdown_witness :
    stoppedWAL.Append background false sampleMsg
      = Outcome.returned (.error (Error.OnShutdown "wal is on shutdown")) stoppedWAL ∧
    (stoppedWAL.AppendAsync sampleMsg).appendExecutionPool = stoppedWAL.appendExecutionPool ∧
    (stoppedWAL.AppendAsync sampleMsg).lifetime = stoppedWAL.lifetime ∧
    (stoppedWAL.Read (.ok "ch/1/2") { DeliverPolicy := "latest" }).2.scanners
      = stoppedWAL.scanners :=
  have h := entry_points_after_shutdown stoppedWAL background false sampleMsg (.ok "ch/1/2")
    { DeliverPolicy := "latest" } (by decide)
  ⟨h.1, h.2.1, h.2.2.2.1, by rw [h.2.2.2.2.2.2.2]⟩

theorem select_eq_ready {ctx : Context} {ready pick : Bool}
    (h : select ctx ready pick = some SelectCase.ready) : ready = true := by
  unfold select at h
  split at h <;> simp_all

theorem select_eq_ctxDone {ctx : Context} {ready pick : Bool} {e : Error}
    (h : select ctx ready pick = some (SelectCase.ctxDone e)) : ctx.err = some e := by
  unfold select at h
  split at h <;> (try split at h) <;> simp_all

theorem select_of_not_ready (ctx : Context) (pick : Bool) :
    select ctx false pick = ctx.err.map SelectCase.ctxDone := by
  unfold select
  split <;> simp_all

/-- An admitted `Append` with neither case of the `select` able to proceed is
blocked there, holding its admission. -/
theorem Append_blocked {ID : Type} (w : walAdaptorImpl ID) (ctx : Context) (pick : Bool)
    (msg : messageImpl) (hworking : w.lifetime.state = State.Working)
    (hsel : select ctx w.interceptorBuildResult.Interceptor.Ready pick = none) :
    w.Append ctx pick msg = Outcome.blocked { w with
      lifetime := { w.lifetime with counter := w.lifetime.counter + 1 }
      trace := w.trace ++ [Event.Select]
      admissions := w.admissions ++ [Admission.Add] } := by
  simp [walAdaptorImpl.Append, Add_of_working w.lifetime hworking, walAdaptorImpl.log, hsel,
    walAdaptorImpl.admit]

/-- An admitted `Append` whose `select` proceeds on `<-ctx.Done()`. -/
theorem Append_ctxDone {ID : Type} (w : walAdaptorImpl ID) (ctx : Context) (pick : Bool)
    (msg : messageImpl) (e : Error) (hworking : w.lifetime.state = State.Working)
    (hsel : select ctx w.interceptorBuildResult.Interceptor.Ready pick
      = some (SelectCase.ctxDone e)) :
    w.Append ctx pick msg
      = Outcome.returned (.error e) { w with
          trace := w.trace ++ [Event.Select]
          admissions := w.admissions ++ [Admission.Add, Admission.Done] } := by
  simp [walAdaptorImpl.Append, Add_of_working w.lifetime hworking, walAdaptorImpl.log, hsel,
    walAdaptorImpl.done, Lifetime.Done, walAdaptorImpl.admit]

/-- An admitted `Append` whose chain append fails. -/
theorem Append_chain_error {ID : Type} (w : walAdaptorImpl ID) (ctx : Context) (pick : Bool)
    (msg : messageImpl) (e : Error) (hworking : w.lifetime.state = State.Working)
    (hsel : select ctx w.interceptorBuildResult.Interceptor.Ready pick = some SelectCase.ready)
    (hres : (w.interceptorBuildResult.Interceptor.DoAppend ctx msg w.inner.Append
      (w.trace ++ [Event.Select, Event.DoAppend msg])).1 = .error e) :
    w.Append ctx pick msg
      = Outcome.returned (.error e) { w with
          trace := (w.interceptorBuildResult.Interceptor.DoAppend ctx msg w.inner.Append
            (w.trace ++ [Event.Select, Event.DoAppend msg])).2
          admissions := w.admissions ++ [Admission.Add, Admission.Done] } := by
  simp [walAdaptorImpl.Append, Add_of_working w.lifetime hworking, walAdaptorImpl.log, hsel,
    walAdaptorImpl.done, Lifetime.Done, hres, walAdaptorImpl.admit]

/-- An admitted `Append` whose chain append succeeds. -/
theorem Append_chain_ok {ID : Type} (w : walAdaptorImpl ID) (ctx : Context) (pick : Bool)
    (msg : messageImpl) (id : ID) (hworking : w.lifetime.state = State.Working)
    (hsel : select ctx w.interceptorBuildResult.Interceptor.Ready pick = some SelectCase.ready)
    (hres : (w.interceptorBuildResult.Interceptor.DoAppend ctx msg w.inner.Append
      (w.trace ++ [Event.Select, Event.DoAppend msg])).1 = .ok id) :
    w.Append ctx pick msg
      = Outcome.returned
          (.ok (w.interceptorBuildResult.UnwrapMessageIDFunc { MessageID := id, Extra := [] }
            (w.interceptorBuildResult.Interceptor.DoAppend ctx msg w.inner.Append
              (w.trace ++ [Event.Select, Event.DoAppend msg])).2).1)
          { w with
            trace := (w.interceptorBuildResult.UnwrapMessageIDFunc { MessageID := id, Extra := [] }
              (w.interceptorBuildResult.Interceptor.DoAppend ctx msg w.inner.Append
                (w.trace ++ [Event.Select, Event.DoAppend msg])).2).2
            admissions := w.admissions ++ [Admission.Add, Admission.Done] } := by
  simp [walAdaptorImpl.Append, Add_of_working w.lifetime hworking, walAdaptorImpl.log, hsel,
    walAdaptorImpl.done, Lifetime.Done, hres, walAdaptorImpl.admit]

/-- The lifetime guard around an admitted `Append`: when the call has returned
the guard is as before, one `Add` and one `Done` having been made; while it is
blocked one admission is held, one `Add` and no `Done` having been made. -/
theorem Append_lifetime_of_working {ID : Type} (w : walAdaptorImpl ID) (ctx : Context)
    (pick : Bool) (msg : messageImpl) (hworking : w.lifetime.state = State.Working) :
    (∀ r w1, w.Append ctx pick msg = Outcome.returned r w1 →
      w1.lifetime = w.lifetime ∧
      w1.admissions = w.admissions ++ [Admission.Add, Admission.Done]) ∧
    (∀ w1, w.Append ctx pick msg = Outcome.blocked w1 →
      w1.lifetime.counter = w.lifetime.counter + 1 ∧
      w1.admissions = w.admissions ++ [Admission.Add]) := by
  rcases hsel : select ctx w.interceptorBuildResult.Interceptor.Ready pick with _ | c
  · rw [Append_blocked w ctx pick msg hworking hsel]
    constructor
    · intro r w1 h; cases h
    · intro w1 h; cases h; exact ⟨rfl, rfl⟩
  · cases c with
    | ctxDone e =>
      rw [Append_ctxDone w ctx pick msg e hworking hsel]
      constructor
      · intro r w1 h; cases h; exact ⟨rfl, rfl⟩
      · intro w1 h; cases h
    | ready =>
      rcases hres : (w.interceptorBuildResult.Interceptor.DoAppend ctx msg w.inner.Append
        (w.trace ++ [Event.Select, Event.DoAppend msg])).1 with e | id
      · rw [Append_chain_error w ctx pick msg e hworking hsel hres]
        constructor
        · intro r w1 h; cases h; exact ⟨rfl, rfl⟩
        · intro w1 h; cases h
      · rw [Append_chain_ok w ctx pick msg id hworking hsel hres]
        constructor
        · intro r w1 h; cases h; exact ⟨rfl, rfl⟩
        · intro w1 h; cases h

/-- C8: an `Append` or `Read` made while the guard is `Working` takes exactly
one admission and releases exactly one on every path on which it returns: the
log of admissions gains one `Add` followed by one `Done` and nothing else, and
the lifetime guard is as the call found it.  This holds for `Append` on
cancellation during the readiness wait, on an error of the chain append and on
success, and for `Read` on a failed name allocation and on success.  While
`Append` is blocked at the `select` it has taken its admission and not
released it. -/
theorem admission_released_on_every_exit {ID : Type} (w : walAdaptorImpl ID) (ctx : Context)
    (pick : Bool) (msg : messageImpl) (name : Except Error String) (opts : ReadOption)
    (hworking : w.lifetime.state = State.Working) :
    (∀ r w1, w.Append ctx pick msg = Outcome.returned r w1 →
      w1.lifetime = w.lifetime ∧
      w1.admissions = w.admissions ++ [Admission.Add, Admission.Done]) ∧
    (∀ w1, w.Append ctx pick msg = Outcome.blocked w1 →
      w1.lifetime.counter = w.lifetime.counter + 1 ∧
      w1.admissions = w.admissions ++ [Admission.Add]) ∧
    (∀ e, ctx.err = some e → w.interceptorBuildResult.Interceptor.Ready = false →
      ∃ w1, w.Append ctx pick msg = Outcome.returned (.error e) w1 ∧ w1.lifetime = w.lifetime ∧
        w1.admissions = w.admissions ++ [Admission.Add, Admission.Done]) ∧
    (∀ e, select ctx w.interceptorBuildResult.Interceptor.Ready pick = some SelectCase.ready →
      (w.interceptorBuildResult.Interceptor.DoAppend ctx msg w.inner.Append
        (w.trace ++ [Event.Select, Event.DoAppend msg])).1 = .error e →
      ∃ w1, w.Append ctx pick msg = Outcome.returned (.error e) w1 ∧ w1.lifetime = w.lifetime ∧
        w1.admissions = w.admissions ++ [Admission.Add, Admission.Done]) ∧
    (∀ id, select ctx w.interceptorBuildResult.Interceptor.Ready pick = some SelectCase.ready →
      (w.interceptorBuildResult.Interceptor.DoAppend ctx msg w.inner.Append
        (w.trace ++ [Event.Select, Event.DoAppend msg])).1 = .ok id →
      ∃ r w1, w.Append ctx pick msg = Outcome.returned (.ok r) w1 ∧ w1.lifetime = w.lifetime ∧
        w1.admissions = w.admissions ++ [Admission.Add, Admission.Done]) ∧
    (∀ e, name = .error e →
      (w.Read name opts).1 = .error e ∧ (w.Read name opts).2.lifetime = w.lifetime ∧
      (w.Read name opts).2.admissions = w.admissions ++ [Admission.Add, Admission.Done]) ∧
    (∀ n, name = .ok n →
      ∃ s, (w.Read name opts).1 = .ok s ∧ (w.Read name opts).2.lifetime = w.lifetime ∧
        (w.Read name opts).2.admissions
          = w.admissions ++ [Admission.Add, Admission.Done]) := by
  have hadd := Add_of_working w.lifetime hworking
  have hall := Append_lifetime_of_working w ctx pick msg hworking
  refine ⟨hall.1, hall.2, ?_, ?_, ?_, ?_, ?_⟩
  · intro e he hready
    have hsel : select ctx w.interceptorBuildResult.Interceptor.Ready pick
        = some (SelectCase.ctxDone e) := by
      rw [hready, select_of_not_ready, he]; rfl
    exact ⟨_, Append_ctxDone w ctx pick msg e hworking hsel, rfl, rfl⟩
  · intro e hsel hres
    exact ⟨_, Append_chain_error w ctx pick msg e hworking hsel hres, rfl, rfl⟩
  · intro id hsel hres
    exact ⟨_, _, Append_chain_ok w ctx pick msg id hworking hsel hres, rfl, rfl⟩
  · intro e he
    subst he
    simp [walAdaptorImpl.Read, hadd, walAdaptorImpl.log, walAdaptorImpl.done, Lifetime.Done,
      walAdaptorImpl.admit]
  · intro n hn
    subst hn
    simp [walAdaptorImpl.Read, hadd, walAdaptorImpl.log, walAdaptorImpl.done, Lifetime.Done,
      walAdaptorImpl.admit]

/-- Witness of `admission_released_on_every_exit`: on the fresh sample adaptor a
successful `Append` and a successful `Read` each make one `Add` and one `Done`
and leave the counter at zero. -/
theorem admission_released_on_every_exit_witness :
    (∃ r w1, workingWAL.Append background false sampleMsg = Outcome.returned (.ok r) w1 ∧
      w1.lifetime = { state := State.Working, counter := 0 } ∧
      w1.admissions = [Admission.Add, Admission.Done]) ∧
    (∃ s, (workingWAL.Read (.ok "ch/1/1") { DeliverPolicy := "earliest" }).1 = .ok s ∧
      (workingWAL.Read (.ok "ch/1/1") { DeliverPolicy := "earliest" }).2.lifetime
        = { state := State.Working, counter := 0 } ∧
      (workingWAL.Read (.ok "ch/1/1") { DeliverPolicy := "earliest" }).2.admissions
        = [Admission.Add, Admission.Done]) :=
  have h := admission_released_on_every_exit workingWAL background false sampleMsg
    (.ok "ch/1/1") { DeliverPolicy := "earliest" } rfl
  ⟨h.2.2.2.2.1 1 rfl rfl, h.2.2.2.2.2.2 "ch/1/1" rfl⟩

/-- C9: for an admitted `Append`: when the context is cancelled and the chain
is not ready, it returns exactly the context error and the only event is the
`Select` (no chain or backend append); when the `select` proceeds on readiness
and the chain append returns error `e`, it returns exactly `e` and the trace is
the one the chain append left (no unwrap hook applied); every error it returns
arises in one of these two ways; and while the chain is not ready the only
event is the `Select`, whether the call returns or blocks. -/
theorem Append_error_is_first_failing_stage {ID : Type} (w : walAdaptorImpl ID) (ctx : Context)
    (pick : Bool) (msg : messageImpl) (hworking : w.lifetime.state = State.Working) :
    (∀ e, ctx.err = some e → w.interceptorBuildResult.Interceptor.Ready = false →
      ∃ w1, w.Append ctx pick msg = Outcome.returned (.error e) w1 ∧
        w1.trace = w.trace ++ [Event.Select]) ∧
    (∀ e, select ctx w.interceptorBuildResult.Interceptor.Ready pick = some SelectCase.ready →
      (w.interceptorBuildResult.Interceptor.DoAppend ctx msg w.inner.Append
        (w.trace ++ [Event.Select, Event.DoAppend msg])).1 = .error e →
      ∃ w1, w.Append ctx pick msg = Outcome.returned (.error e) w1 ∧
        w1.trace = (w.interceptorBuildResult.Interceptor.DoAppend ctx msg w.inner.Append
          (w.trace ++ [Event.Select, Event.DoAppend msg])).2) ∧
    (∀ e w1, w.Append ctx pick msg = Outcome.returned (.error e) w1 →
      (ctx.err = some e ∧ w1.trace = w.trace ++ [Event.Select]) ∨
      (w.interceptorBuildResult.Interceptor.Ready = true ∧
        (w.interceptorBuildResult.Interceptor.DoAppend ctx msg w.inner.Append
          (w.trace ++ [Event.Select, Event.DoAppend msg])).1 = .error e ∧
        w1.trace = (w.interceptorBuildResult.Interceptor.DoAppend ctx msg w.inner.Append
          (w.trace ++ [Event.Select, Event.DoAppend msg])).2)) ∧
    (w.interceptorBuildResult.Interceptor.Ready = false →
      (∀ r w1, w.Append ctx pick msg = Outcome.returned r w1 →
        w1.trace = w.trace ++ [Event.Select]) ∧
      (∀ w1, w.Append ctx pick msg = Outcome.blocked w1 →
        w1.trace = w.trace ++ [Event.Select])) := by
  refine ⟨?_, ?_, ?_, ?_⟩
  · intro e he hready
    have hsel : select ctx w.interceptorBuildResult.Interceptor.Ready pick
        = some (SelectCase.ctxDone e) := by
      rw [hready, select_of_not_ready, he]; rfl
    exact ⟨_, Append_ctxDone w ctx pick msg e hworking hsel, rfl⟩
  · intro e hsel hres
    exact ⟨_, Append_chain_error w ctx pick msg e hworking hsel hres, rfl⟩
  · intro e w1 h
    rcases hsel : select ctx w.interceptorBuildResult.Interceptor.Ready pick with _ | c
    · rw [Append_blocked w ctx pick msg hworking hsel] at h
      cases h
    · cases c with
      | ctxDone e1 =>
        rw [Append_ctxDone w ctx pick msg e1 hworking hsel] at h
        cases h
        exact Or.inl ⟨select_eq_ctxDone hsel, rfl⟩
      | ready =>
        rcases hres : (w.interceptorBuildResult.Interceptor.DoAppend ctx msg w.inner.Append
          (w.trace ++ [Event.Select, Event.DoAppend msg])).1 with e1 | id
        · rw [Append_chain_error w ctx pick msg e1 hworking hsel hres] at h
          cases h
          exact Or.inr ⟨select_eq_ready hsel, rfl, rfl⟩
        · rw [Append_chain_ok w ctx pick msg id hworking hsel hres] at h
          cases h
  · intro hready
    have hsel := select_of_not_ready ctx pick
    rw [← hready] at hsel
    rcases herr : ctx.err with _ | e
    · rw [herr] at hsel
      rw [Append_blocked w ctx pick msg hworking hsel]
      constructor
      · intro r w1 h; cases h
      · intro w1 h; cases h; rfl
    · rw [herr] at hsel
      rw [Append_ctxDone w ctx pick msg e hworking hsel]
      constructor
      · intro r w1 h; cases h; rfl
      · intro w1 h; cases h

/-- Witness of `Append_error_is_first_failing_stage`: with a cancelled context
and a chain that is not ready the append returns the context error after the
`Select` alone; over the failing backend it returns the backend error and the
trace ends with the backend append, no `Unwrap` event following although the
interceptor has a hook. -/
theorem Append_error_is_first_failing_stage_witness :
    (∃ w1, replayingWAL.Append cancelled false sampleMsg
        = Outcome.returned (.error (Error.other "context canceled")) w1 ∧
      w1.trace = [Event.Select]) ∧
    (∃ w1, brokenWAL.Append background false sampleMsg
        = Outcome.returned (.error (Error.other "disk full")) w1 ∧
      w1.trace = [Event.Select, Event.DoAppend sampleMsg, Event.InnerAppend sampleMsg]) :=
  ⟨(Append_error_is_first_failing_stage replayingWAL cancelled false sampleMsg rfl).1
      (Error.other "context canceled") rfl rfl,
    (Append_error_is_first_failing_stage brokenWAL background false sampleMsg rfl).2.1
      (Error.other "disk full") rfl rfl⟩

/-- The first loop of `buildInterceptor` builds the interceptors in builder
order. -/
theorem built_eq_map {ID : Type} (builders : List (InterceptorBuilder ID))
    (param : InterceptorBuildParam ID) (acc : List (Interceptor ID)) :
    builders.foldl (fun built b => built ++ [b.Build param]) acc
      = acc ++ builders.map (fun b => b.Build param) := by
  induction builders generalizing acc with
  | nil => simp
  | cons b rest ih => simp [ih]

/-- The second loop of `buildInterceptor` keeps, in order, the hooks of the
interceptors that have one. -/
theorem funcs_eq_filterMap {ID : Type} (l : List (Nat × Interceptor ID))
    (acc : List (Nat × (AppendResult ID → AppendResult ID))) :
    l.foldl
        (fun funcs ki =>
          match ki.2.UnwrapMessageID with
          | some r => funcs ++ [(ki.1, r)]
          | none => funcs)
        acc
      = acc ++ l.filterMap (fun ki => ki.2.UnwrapMessageID.map (fun r => (ki.1, r))) := by
  induction l generalizing acc with
  | nil => simp
  | cons ki rest ih =>
    simp only [List.foldl_cons, ih]
    cases h : ki.2.UnwrapMessageID <;> simp [List.filterMap_cons, h]

/-- The loop of `UnwrapMessageIDFunc` applies the collected hooks from first to
last and records each application. -/
theorem apply_funcs {ID : Type} (funcs : List (Nat × (AppendResult ID → AppendResult ID)))
    (r : AppendResult ID) (tr : List (Event ID)) :
    funcs.foldl (fun acc kf => (kf.2 acc.1, acc.2 ++ [Event.Unwrap kf.1])) (r, tr)
      = ((funcs.map (fun kf => kf.2)).foldl (fun r f => f r) r,
          tr ++ funcs.map (fun kf => Event.Unwrap kf.1)) := by
  induction funcs generalizing r tr with
  | nil => simp
  | cons kf rest ih => simp [ih]

theorem hooks_of_filterMap {ID : Type} (l : List (Nat × Interceptor ID)) :
    (l.filterMap (fun ki => ki.2.UnwrapMessageID.map (fun r => (ki.1, r)))).map (fun kf => kf.2)
      = (l.map (fun ki => ki.2)).filterMap (fun i => i.UnwrapMessageID) := by
  induction l with
  | nil => simp
  | cons ki rest ih =>
    cases h : ki.2.UnwrapMessageID <;> simp [List.filterMap_cons, h, ih]

theorem events_of_filterMap {ID : Type} (l : List (Nat × Interceptor ID)) :
    (l.filterMap (fun ki => ki.2.UnwrapMessageID.map (fun r => (ki.1, r)))).map
        (fun kf => (Event.Unwrap kf.1 : Event ID))
      = (l.filter (fun ki => ki.2.UnwrapMessageID.isSome)).map (fun ki => Event.Unwrap ki.1) := by
  induction l with
  | nil => simp
  | cons ki rest ih =>
    cases h : ki.2.UnwrapMessageID <;> simp [List.filterMap_cons, List.filter_cons, h, ih]

/-- What `UnwrapMessageIDFunc` of `buildInterceptor` computes: the hooks of the
built interceptors that have one, applied in builder order; the trace gains
one `Unwrap` event per such interceptor, in the same order. -/
theorem UnwrapMessageIDFunc_buildInterceptor {ID : Type} (builders : List (InterceptorBuilder ID))
    (param : InterceptorBuildParam ID) (r : AppendResult ID) (tr : List (Event ID)) :
    (buildInterceptor builders param).UnwrapMessageIDFunc r tr
      = (((builders.map (fun b => b.Build param)).filterMap (fun i => i.UnwrapMessageID)).foldl
            (fun r f => f r) r,
          tr ++ ((builders.map (fun b => b.Build param)).enum.filter
            (fun ki => ki.2.UnwrapMessageID.isSome)).map (fun ki => Event.Unwrap ki.1)) := by
  simp only [buildInterceptor, built_eq_map, funcs_eq_filterMap, apply_funcs, List.nil_append,
    hooks_of_filterMap, events_of_filterMap]
  congr 3
  exact List.enum_map_snd _

/-- C6: after a successful chain append returning `id`, an admitted `Append`
returns the result `AppendResult{MessageID: id}` to which the unwrap hooks of
the built interceptors that have one were applied in builder order, one
`Unwrap` event per such interceptor and none for the others; with no hook the
result carries the id of the chain; with two interceptors whose hooks set the
id to `a` and then to `b`, the final id is `b`. -/
theorem Append_applies_unwrap_hooks_in_order {ID : Type} (w : walAdaptorImpl ID)
    (builders : List (InterceptorBuilder ID)) (param : InterceptorBuildParam ID) (ctx : Context)
    (pick : Bool) (msg : messageImpl) (id : ID)
    (hbuilt : w.interceptorBuildResult = buildInterceptor builders param)
    (hworking : w.lifetime.state = State.Working)
    (hsel : select ctx w.interceptorBuildResult.Interceptor.Ready pick = some SelectCase.ready)
    (hres : (w.interceptorBuildResult.Interceptor.DoAppend ctx msg w.inner.Append
      (w.trace ++ [Event.Select, Event.DoAppend msg])).1 = .ok id) :
    (∃ w1, w.Append ctx pick msg
        = Outcome.returned
            (.ok (((builders.map (fun b => b.Build param)).filterMap
              (fun i => i.UnwrapMessageID)).foldl (fun r f => f r)
              { MessageID := id, Extra := [] })) w1 ∧
      w1.trace
        = (w.interceptorBuildResult.Interceptor.DoAppend ctx msg w.inner.Append
            (w.trace ++ [Event.Select, Event.DoAppend msg])).2
          ++ ((builders.map (fun b => b.Build param)).enum.filter
            (fun ki => ki.2.UnwrapMessageID.isSome)).map (fun ki => Event.Unwrap ki.1)) ∧
    ((∀ b ∈ builders, (b.Build param).UnwrapMessageID = none) →
      ∃ w1, w.Append ctx pick msg
        = Outcome.returned (.ok { MessageID := id, Extra := [] }) w1) ∧
    (∀ (b1 b2 : InterceptorBuilder ID) (a b : ID), builders = [b1, b2] →
      (b1.Build param).UnwrapMessageID = some (fun r => { r with MessageID := a }) →
      (b2.Build param).UnwrapMessageID = some (fun r => { r with MessageID := b }) →
      ∃ w1, w.Append ctx pick msg
        = Outcome.returned (.ok { MessageID := b, Extra := [] }) w1) := by
  have happ := Append_chain_ok w ctx pick msg id hworking hsel hres
  rw [hbuilt] at happ
  simp only [UnwrapMessageIDFunc_buildInterceptor] at happ
  rw [← hbuilt] at happ
  refine ⟨⟨_, happ, rfl⟩, ?_, ?_⟩
  · intro hnone
    have hempty : (builders.map (fun b => b.Build param)).filterMap (fun i => i.UnwrapMessageID)
        = [] := by
      rw [List.filterMap_eq_nil_iff]
      intro i hi
      obtain ⟨b, hb, rfl⟩ := List.mem_map.1 hi
      exact hnone b hb
    rw [hempty] at happ
    exact ⟨_, happ⟩
  · intro b1 b2 a b hb h1 h2
    subst hb
    simp only [List.map_cons, List.map_nil, List.filterMap_cons, h1, h2, List.filterMap_nil,
      List.foldl_cons, List.foldl_nil] at happ
    exact ⟨_, happ⟩

/-- Witness of `Append_applies_unwrap_hooks_in_order`: on the sample adaptor
with hooks 10, none, 20 the backend id 1 is rewritten to 20, and the hooks of
the interceptors at positions 0 and 2 are applied once each, in that order. -/
theorem Append_applies_unwrap_hooks_in_order_witness :
    (∃ w1, workingWAL.Append background false sampleMsg
        = Outcome.returned (.ok { MessageID := 20, Extra := [] }) w1 ∧
      w1.trace = [Event.Select, Event.DoAppend sampleMsg, Event.InnerAppend sampleMsg,
        Event.Unwrap 0, Event.Unwrap 2]) ∧
    (∃ w1, plainWAL.Append background false sampleMsg
        = Outcome.returned (.ok { MessageID := 1, Extra := [] }) w1) ∧
    (∃ w1, twoHookWAL.Append background false sampleMsg
        = Outcome.returned (.ok { MessageID := 20, Extra := [] }) w1) :=
  ⟨(Append_applies_unwrap_hooks_in_order workingWAL
      [rewriteBuilder 10, forwardBuilder, rewriteBuilder 20] { WALImpls := sequentialWAL }
      background false sampleMsg 1 rfl rfl rfl rfl).1,
    (Append_applies_unwrap_hooks_in_order plainWAL [] { WALImpls := sequentialWAL }
      background false sampleMsg 1 rfl rfl rfl rfl).2.1 (by simp),
    (Append_applies_unwrap_hooks_in_order twoHookWAL [rewriteBuilder 10, rewriteBuilder 20]
      { WALImpls := sequentialWAL } background false sampleMsg 1 rfl rfl rfl rfl).2.2
      (rewriteBuilder 10) (rewriteBuilder 20) 10 20 rfl rfl rfl⟩

/-- The loop of `Close` over the tracked scanners records one `ScannerClose`
per entry, in map order, and touches neither the lifetime guard nor the id
allocator. -/
theorem close_scanners_fold {ID : Type} (l : List (Int × scannerAdaptor)) (w : walAdaptorImpl ID) :
    (l.foldl (fun acc e => scannerAdaptor.Close e.1 e.2 acc) w).trace
        = w.trace ++ l.map (fun e => Event.ScannerClose e.1) ∧
    (l.foldl (fun acc e => scannerAdaptor.Close e.1 e.2 acc) w).lifetime = w.lifetime := by
  induction l generalizing w with
  | nil => simp
  | cons e rest ih =>
    simp only [List.foldl_cons, List.map_cons]
    rw [(ih _).1, (ih _).2]
    simp [scannerAdaptor.Close, scannerAdaptor.runCleanup, walAdaptorImpl.log]

/-- C7: a `Close` that finds no operation outstanding returns, and its effects
are, in this order and once each: state `Stopped`, the wait for the drain,
lifetime `Closed`, one close per tracked scanner, backend close, interceptor
chain close, pool free, cleanup hook; the guard ends `Closed`.  A `Close` that
finds operations outstanding is blocked at the wait, having only set the state
to `Stopped`; and from whatever adaptor state the wait ends in, the rest of
`Close` performs the remaining effects in the same order. -/
theorem Close_teardown_order {ID : Type} (w : walAdaptorImpl ID)
    (hdrained : w.lifetime.counter = 0) :
    (∃ w1, w.Close = Outcome.returned () w1 ∧
      w1.trace = w.trace
        ++ [Event.SetState State.Stopped, Event.Wait, Event.LifetimeClose]
        ++ w.scanners.entries.map (fun e => Event.ScannerClose e.1)
        ++ [Event.InnerClose, Event.InterceptorClose, Event.PoolFree, Event.Cleanup] ∧
      w1.trace.getLast? = some Event.Cleanup ∧
      w1.lifetime.state = State.Closed) ∧
    (∀ w0 : walAdaptorImpl ID, w0.lifetime.counter ≠ 0 →
      ∃ w1, w0.Close = Outcome.blocked w1 ∧
        w1.trace = w0.trace ++ [Event.SetState State.Stopped] ∧
        w1.lifetime = { state := State.Stopped, counter := w0.lifetime.counter }) ∧
    (∀ w2 : walAdaptorImpl ID,
      w2.closeAfterWait.trace = w2.trace
        ++ [Event.Wait, Event.LifetimeClose]
        ++ w2.scanners.entries.map (fun e => Event.ScannerClose e.1)
        ++ [Event.InnerClose, Event.InterceptorClose, Event.PoolFree, Event.Cleanup] ∧
      w2.closeAfterWait.lifetime.state = State.Closed) := by
  have hafter : ∀ w2 : walAdaptorImpl ID,
      w2.closeAfterWait.trace = w2.trace
        ++ [Event.Wait, Event.LifetimeClose]
        ++ w2.scanners.entries.map (fun e => Event.ScannerClose e.1)
        ++ [Event.InnerClose, Event.InterceptorClose, Event.PoolFree, Event.Cleanup] ∧
      w2.closeAfterWait.lifetime.state = State.Closed := by
    intro w2
    simp only [walAdaptorImpl.closeAfterWait, walAdaptorImpl.log]
    constructor
    · simp [close_scanners_fold]
    · simp [close_scanners_fold, Lifetime.Close]
  refine ⟨?_, ?_, hafter⟩
  · simp only [walAdaptorImpl.Close, walAdaptorImpl.log, Lifetime.SetState, hdrained, ne_eq,
      not_true_eq_false, if_false]
    refine ⟨_, rfl, ?_, ?_, (hafter _).2⟩
    · rw [(hafter _).1]
      simp
    · rw [(hafter _).1]
      have hlast : ∀ l : List (Event ID),
          (l ++ [Event.InnerClose, Event.InterceptorClose, Event.PoolFree,
            Event.Cleanup]).getLast? = some Event.Cleanup := by
        intro l
        have hsplit : l ++ [Event.InnerClose, Event.InterceptorClose, Event.PoolFree,
            Event.Cleanup]
            = (l ++ [Event.InnerClose, Event.InterceptorClose, Event.PoolFree])
              ++ [Event.Cleanup] := by simp
        rw [hsplit, List.getLast?_concat]
      exact hlast _
  · intro w0 h0
    simp only [walAdaptorImpl.Close, walAdaptorImpl.log, Lifetime.SetState, ne_eq, h0,
      not_false_eq_true, if_true]
    exact ⟨_, rfl, rfl, rfl⟩

/-- Witness of `Close_teardown_order`: the sample adaptor tracking scanners 1
and 2. -/
theorem Close_teardown_order_witness :
    ∃ w1, trackingWAL.Close = Outcome.returned () w1 ∧
      w1.trace = [Event.SetState State.Stopped, Event.Wait, Event.LifetimeClose,
        Event.ScannerClose 1, Event.ScannerClose 2,
        Event.InnerClose, Event.InterceptorClose, Event.PoolFree, Event.Cleanup] ∧
      w1.trace.getLast? = some Event.Cleanup ∧
      w1.lifetime.state = State.Closed :=
  (Close_teardown_order trackingWAL rfl).1

theorem ConcurrentMap.Get_eq_none {V : Type} (m : ConcurrentMap V) (key : Int) :
    m.Get key = none ↔ ∀ e ∈ m.entries, e.1 ≠ key := by
  simp [ConcurrentMap.Get, List.find?_eq_none]

theorem ConcurrentMap.Insert_of_fresh {V : Type} (m : ConcurrentMap V) (key : Int) (value : V)
    (hfresh : m.Get key = none) : m.Insert key value = { entries := m.entries ++ [(key, value)] } := by
  have h := (ConcurrentMap.Get_eq_none m key).1 hfresh
  have hany : m.entries.any (fun e => e.1 == key) = false := by
    simpa [List.any_eq_false] using h
  simp [ConcurrentMap.Insert, hany]

theorem ConcurrentMap.Remove_Insert_of_fresh {V : Type} (m : ConcurrentMap V) (key : Int)
    (value : V) (hfresh : m.Get key = none) : (m.Insert key value).Remove key = m := by
  have h := (ConcurrentMap.Get_eq_none m key).1 hfresh
  rw [ConcurrentMap.Insert_of_fresh m key value hfresh]
  have hfilter : m.entries.filter (fun e => !(e.1 == key)) = m.entries := by
    rw [List.filter_eq_self]
    intro e he
    simpa using h e he
  simp [ConcurrentMap.Remove, List.filter_append, hfilter]

theorem ConcurrentMap.Remove_Remove {V : Type} (m : ConcurrentMap V) (key : Int) :
    (m.Remove key).Remove key = m.Remove key := by
  simp [ConcurrentMap.Remove, List.filter_filter]

theorem ConcurrentMap.Get_Remove_same {V : Type} (m : ConcurrentMap V) (key : Int) :
    (m.Remove key).Get key = none := by
  rw [ConcurrentMap.Get_eq_none]
  intro e he
  simpa [ConcurrentMap.Remove] using (List.mem_filter.1 he).2

theorem ConcurrentMap.Get_Remove_other {V : Type} (m : ConcurrentMap V) (key other : Int)
    (hne : other ≠ key) : (m.Remove key).Get other = m.Get other := by
  obtain ⟨es⟩ := m
  simp only [ConcurrentMap.Remove, ConcurrentMap.Get]
  induction es with
  | nil => simp
  | cons e rest ih =>
    obtain ⟨k, v⟩ := e
    by_cases h1 : k = key
    · subst h1
      simpa [List.filter_cons, List.find?_cons, Ne.symm hne] using ih
    · by_cases h2 : k = other
      · subst h2
        simp [List.filter_cons, h1, List.find?_cons]
      · simpa [List.filter_cons, h1, List.find?_cons, h2] using ih

theorem ConcurrentMap.Get_Insert_of_fresh {V : Type} (m : ConcurrentMap V) (key : Int) (value : V)
    (hfresh : m.Get key = none) :
    (m.Insert key value).Get key = some value ∧
    ∀ other, other ≠ key → (m.Insert key value).Get other = m.Get other := by
  have h := (ConcurrentMap.Get_eq_none m key).1 hfresh
  rw [ConcurrentMap.Insert_of_fresh m key value hfresh]
  constructor
  · have hnone : m.entries.find? (fun e => e.1 == key) = none := by
      rw [List.find?_eq_none]
      intro e he
      simpa using h e he
    simp [ConcurrentMap.Get, List.find?_append, hnone]
  · intro other hne
    simp only [ConcurrentMap.Get, List.find?_append]
    cases hf : m.entries.find? (fun e => e.1 == other) with
    | none => simp [List.find?_cons, Ne.symm hne]
    | some e => simp

/-- Running a cleanup closure any positive number of times is running it once. -/
theorem runCleanup_iterate {ID : Type} (s : scannerAdaptor) (w : walAdaptorImpl ID) (n : Nat) :
    ((s.runCleanup)^[n + 1] w).scanners = (s.runCleanup w).scanners := by
  induction n generalizing w with
  | zero => rfl
  | succ k ih =>
    rw [Function.iterate_succ_apply, ih]
    simp [scannerAdaptor.runCleanup, ConcurrentMap.Remove_Remove]

/-- C10: effect of an admitted `Read` on the tracking map.  When the name
allocation fails, the error is returned, no id is allocated and the map is
unchanged.  Otherwise, the allocated id not being a key yet, the returned
scanner is the one built from the name, the options and the cleanup closure
of that id; the map is the map before plus the single entry of that id holding
that scanner, every other key reading as before; and the cleanup closure, run
one or more times, gives back the map before.  In any state, a cleanup closure
removes the entry of its id, leaves every other key as it was, and running it
again changes nothing. -/
theorem Read_tracks_exactly_one_scanner {ID : Type} (w : walAdaptorImpl ID)
    (name : Except Error String) (opts : ReadOption)
    (hworking : w.lifetime.state = State.Working) :
    (∀ e, name = .error e →
      (w.Read name opts).1 = .error e ∧
      (w.Read name opts).2.idAllocator = w.idAllocator ∧
      (w.Read name opts).2.scanners = w.scanners) ∧
    (∀ n, name = .ok n → w.scanners.Get w.idAllocator.Allocate.1 = none →
      (w.Read name opts).1
        = .ok { name := n, opts := opts, cleanup := w.idAllocator.Allocate.1 } ∧
      (w.Read name opts).2.idAllocator = w.idAllocator.Allocate.2 ∧
      (w.Read name opts).2.scanners.entries
        = w.scanners.entries ++ [(w.idAllocator.Allocate.1,
            { name := n, opts := opts, cleanup := w.idAllocator.Allocate.1 })] ∧
      (w.Read name opts).2.scanners.Get w.idAllocator.Allocate.1
        = some { name := n, opts := opts, cleanup := w.idAllocator.Allocate.1 } ∧
      (∀ key, key ≠ w.idAllocator.Allocate.1 →
        (w.Read name opts).2.scanners.Get key = w.scanners.Get key) ∧
      (∀ k : Nat,
        ((scannerAdaptor.runCleanup
            { name := n, opts := opts, cleanup := w.idAllocator.Allocate.1 })^[k + 1]
          (w.Read name opts).2).scanners = w.scanners)) ∧
    (∀ (s : scannerAdaptor) (w2 : walAdaptorImpl ID),
      (s.runCleanup w2).scanners.Get s.cleanup = none ∧
      (∀ key, key ≠ s.cleanup → (s.runCleanup w2).scanners.Get key = w2.scanners.Get key) ∧
      (∀ k : Nat, ((s.runCleanup)^[k + 1] w2).scanners = (s.runCleanup w2).scanners)) := by
  have hadd := Add_of_working w.lifetime hworking
  refine ⟨?_, ?_, ?_⟩
  · intro e he
    subst he
    simp [walAdaptorImpl.Read, hadd, walAdaptorImpl.log, walAdaptorImpl.done,
        walAdaptorImpl.admit]
  · intro n hn hfresh
    subst hn
    have hread : (w.Read (.ok n) opts).2.scanners
        = w.scanners.Insert w.idAllocator.Allocate.1
            { name := n, opts := opts, cleanup := w.idAllocator.Allocate.1 } := by
      simp [walAdaptorImpl.Read, hadd, walAdaptorImpl.log, walAdaptorImpl.done,
        walAdaptorImpl.admit]
    refine ⟨?_, ?_, ?_, ?_, ?_, ?_⟩
    · simp [walAdaptorImpl.Read, hadd, walAdaptorImpl.log, walAdaptorImpl.done,
        walAdaptorImpl.admit]
    · simp [walAdaptorImpl.Read, hadd, walAdaptorImpl.log, walAdaptorImpl.done,
        walAdaptorImpl.admit]
    · rw [hread, ConcurrentMap.Insert_of_fresh _ _ _ hfresh]
    · rw [hread]
      exact (ConcurrentMap.Get_Insert_of_fresh _ _ _ hfresh).1
    · intro key hkey
      rw [hread]
      exact (ConcurrentMap.Get_Insert_of_fresh _ _ _ hfresh).2 key hkey
    · intro k
      rw [runCleanup_iterate]
      simp only [scannerAdaptor.runCleanup]
      rw [hread]
      exact ConcurrentMap.Remove_Insert_of_fresh _ _ _ hfresh
  · intro s w2
    refine ⟨?_, ?_, ?_⟩
    · exact ConcurrentMap.Get_Remove_same _ _
    · intro key hkey
      exact ConcurrentMap.Get_Remove_other _ _ _ hkey
    · intro k
      exact runCleanup_iterate s w2 k

/-- Witness of `Read_tracks_exactly_one_scanner`: on the sample adaptor that
tracks scanners 1 and 2, `Read` allocates id 3 and tracks the new scanner
under it; its cleanup closure, run twice, leaves scanners 1 and 2. -/
theorem Read_tracks_exactly_one_scanner_witness :
    (trackingWAL.Read (.ok "ch/1/3") { DeliverPolicy := "latest" }).1
      = .ok { name := "ch/1/3", opts := { DeliverPolicy := "latest" }, cleanup := 3 } ∧
    (trackingWAL.Read (.ok "ch/1/3") { DeliverPolicy := "latest" }).2.scanners.entries
      = trackingWAL.scanners.entries
        ++ [(3, { name := "ch/1/3", opts := { DeliverPolicy := "latest" }, cleanup := 3 })] ∧
    ((scannerAdaptor.runCleanup
        { name := "ch/1/3", opts := { DeliverPolicy := "latest" }, cleanup := 3 })^[2]
      (trackingWAL.Read (.ok "ch/1/3") { DeliverPolicy := "latest" }).2).scanners
      = trackingWAL.scanners :=
  have h := (Read_tracks_exactly_one_scanner trackingWAL (.ok "ch/1/3")
    { DeliverPolicy := "latest" } rfl).2.1 "ch/1/3" rfl (by decide)
  ⟨h.1, h.2.2.1, h.2.2.2.2.2 1⟩

/-- An `Append` changes neither the state of the lifetime guard nor the pool. -/
theorem Append_frame {ID : Type} (w : walAdaptorImpl ID) (ctx : Context) (pick : Bool)
    (msg : messageImpl) :
    (w.Append ctx pick msg).state.lifetime.state = w.lifetime.state ∧
    (w.Append ctx pick msg).state.appendExecutionPool = w.appendExecutionPool := by
  by_cases hworking : w.lifetime.state = State.Working
  · rcases hsel : select ctx w.interceptorBuildResult.Interceptor.Ready pick with _ | c
    · rw [Append_blocked w ctx pick msg hworking hsel]
      exact ⟨rfl, rfl⟩
    · cases c with
      | ctxDone e =>
        rw [Append_ctxDone w ctx pick msg e hworking hsel]
        exact ⟨rfl, rfl⟩
      | ready =>
        rcases hres : (w.interceptorBuildResult.Interceptor.DoAppend ctx msg w.inner.Append
          (w.trace ++ [Event.Select, Event.DoAppend msg])).1 with e | id
        · rw [Append_chain_error w ctx pick msg e hworking hsel hres]
          exact ⟨rfl, rfl⟩
        · rw [Append_chain_ok w ctx pick msg id hworking hsel hres]
          exact ⟨rfl, rfl⟩
  · rw [Append_of_not_working w ctx pick msg hworking]
    exact ⟨rfl, rfl⟩

/-- Running a submitted closure changes neither the state of the lifetime guard
nor the pool. -/
theorem runAsyncTask_frame {ID : Type} (w : walAdaptorImpl ID) (ctx : Context) (pick : Bool)
    (task : AsyncTask) :
    (w.runAsyncTask ctx pick task).state.lifetime.state = w.lifetime.state ∧
    (w.runAsyncTask ctx pick task).state.appendExecutionPool = w.appendExecutionPool := by
  have h := Append_frame w ctx pick task.msg
  unfold walAdaptorImpl.runAsyncTask
  cases happ : w.Append ctx pick task.msg with
  | blocked w1 =>
    rw [happ] at h
    exact h
  | returned r w1 =>
    rw [happ] at h
    exact h

/-- The loop of `Close` over the tracked scanners leaves the pool alone. -/
theorem close_scanners_fold_pool {ID : Type} (l : List (Int × scannerAdaptor))
    (w : walAdaptorImpl ID) :
    (l.foldl (fun acc e => scannerAdaptor.Close e.1 e.2 acc) w).appendExecutionPool
      = w.appendExecutionPool := by
  induction l generalizing w with
  | nil => rfl
  | cons e rest ih =>
    simp only [List.foldl_cons]
    rw [ih]
    rfl

/-- The pool is released only by the part of `Close` that follows the wait,
which also leaves the guard `Closed`; no method brings the guard back to
`Working`.  So on every reachable adaptor whose guard is `Working` the pool has
not been released. -/
theorem pool_live_of_reachable {ID : Type} (w : walAdaptorImpl ID) (hreach : Reachable w) :
    w.lifetime.state = State.Working → w.appendExecutionPool.released = false := by
  induction hreach with
  | adaptImplsToWAL basicWAL builders => intro _; rfl
  | Append w ctx pick msg _ ih =>
    rw [(Append_frame w ctx pick msg).1, (Append_frame w ctx pick msg).2]
    exact ih
  | AppendAsync w msg _ ih =>
    intro h
    by_cases hworking : w.lifetime.state = State.Working
    · have hpool := ih hworking
      simp [walAdaptorImpl.AppendAsync, Add_of_working w.lifetime hworking, walAdaptorImpl.log,
        walAdaptorImpl.admit, Pool.Submit, hpool]
    · have hadd := Add_of_not_working w.lifetime hworking
      simp [walAdaptorImpl.AppendAsync, hadd, walAdaptorImpl.log] at h
      exact absurd h hworking
  | runAsyncTask w ctx pick task _ ih =>
    rw [(runAsyncTask_frame w ctx pick task).1, (runAsyncTask_frame w ctx pick task).2]
    exact ih
  | Read w name opts _ ih =>
    intro h
    by_cases hworking : w.lifetime.state = State.Working
    · have hadd := Add_of_working w.lifetime hworking
      have hpool := ih hworking
      cases name <;>
        simpa [walAdaptorImpl.Read, hadd, walAdaptorImpl.log, walAdaptorImpl.done,
          walAdaptorImpl.admit] using hpool
    · have hadd := Add_of_not_working w.lifetime hworking
      simp [walAdaptorImpl.Read, hadd] at h
      exact absurd h hworking
  | runCleanup w s _ ih => exact ih
  | Close w _ _ =>
    intro h
    exfalso
    by_cases hc : w.lifetime.counter = 0
    · simp [walAdaptorImpl.Close, walAdaptorImpl.log, Lifetime.SetState, hc, Outcome.state,
        walAdaptorImpl.closeAfterWait, (close_scanners_fold _ _).2, Lifetime.Close] at h
    · simp [walAdaptorImpl.Close, walAdaptorImpl.log, Lifetime.SetState, hc, Outcome.state] at h
  | closeAfterWait w _ _ _ _ =>
    intro h
    exfalso
    simp [walAdaptorImpl.closeAfterWait, walAdaptorImpl.log, (close_scanners_fold _ _).2,
      Lifetime.Close] at h

/-- Outside the reachable states: were the pool released while the guard is
still `Working`, `Submit` would refuse the task and `AppendAsync` would keep
the admission it took, no closure being there to release it.
`pool_live_of_reachable` excludes this state. -/
theorem AppendAsync_of_released_pool {ID : Type} (w : walAdaptorImpl ID) (msg : messageImpl)
    (hworking : w.lifetime.state = State.Working)
    (hreleased : w.appendExecutionPool.released = true) :
    (w.AppendAsync msg).appendExecutionPool = w.appendExecutionPool ∧
    (w.AppendAsync msg).lifetime.counter = w.lifetime.counter + 1 ∧
    (w.AppendAsync msg).admissions = w.admissions ++ [Admission.Add] ∧
    ¬ Reachable w := by
  have hadd := Add_of_working w.lifetime hworking
  refine ⟨?_, ?_, ?_, ?_⟩
  · simp [walAdaptorImpl.AppendAsync, hadd, walAdaptorImpl.log, walAdaptorImpl.admit,
      Pool.Submit, hreleased]
  · simp [walAdaptorImpl.AppendAsync, hadd, walAdaptorImpl.log, walAdaptorImpl.admit]
  · simp [walAdaptorImpl.AppendAsync, hadd, walAdaptorImpl.log, walAdaptorImpl.admit]
  · intro hreach
    have h := pool_live_of_reachable w hreach hworking
    rw [hreleased] at h
    cases h

/-- What a pool worker does when it runs a submitted closure: whenever the
closure returns, the callback was invoked last and exactly one admission more
was released than was taken (the `Add` and `Done` of the inner `Append`, when
it was admitted, and the `Done` deferred by the closure). -/
theorem runAsyncTask_releases_once {ID : Type} (w2 w3 : walAdaptorImpl ID) (ctx : Context)
    (pick : Bool) (task : AsyncTask)
    (h : w2.runAsyncTask ctx pick task = Outcome.returned () w3) :
    w3.lifetime = w2.lifetime.Done ∧
    (w3.admissions = w2.admissions ++ [Admission.Add, Admission.Done, Admission.Done] ∨
      w3.admissions = w2.admissions ++ [Admission.Done]) ∧
    ∃ r, w3.trace.getLast? = some (Event.Callback r) := by
  unfold walAdaptorImpl.runAsyncTask at h
  by_cases hw2 : w2.lifetime.state = State.Working
  · have hbal := (Append_lifetime_of_working w2 ctx pick task.msg hw2).1
    cases happ : w2.Append ctx pick task.msg with
    | blocked w4 => rw [happ] at h; cases h
    | returned r w4 =>
      rw [happ] at h
      cases h
      have h4 := hbal r w4 happ
      refine ⟨by simp [walAdaptorImpl.log, walAdaptorImpl.done, h4.1],
        Or.inl (by simp [walAdaptorImpl.log, walAdaptorImpl.done, h4.2]),
        r, by simp [walAdaptorImpl.log, walAdaptorImpl.done]⟩
  · have happ := Append_of_not_working w2 ctx pick task.msg hw2
    rw [happ] at h
    cases h
    exact ⟨by simp [walAdaptorImpl.log, walAdaptorImpl.done],
      Or.inr (by simp [walAdaptorImpl.log, walAdaptorImpl.done]),
      .error (Error.OnShutdown "wal is on shutdown"),
      by simp [walAdaptorImpl.log, walAdaptorImpl.done]⟩

/-- C5: an `AppendAsync` admitted on a reachable adaptor takes one admission
and its task is taken by the pool, which cannot have been released while the
guard is `Working`, so that `Submit` does not reject; whenever a worker then
runs the task to completion, from the adaptor as left by the call or from any
later state, the guard's counter goes down by exactly one, the log of
admissions gaining exactly one `Done` beyond the balanced `Add` and `Done` of
the inner `Append`; run right after the call, the task brings the lifetime
guard back to what it was before the call. -/
theorem AppendAsync_releases_admission_once {ID : Type} (w : walAdaptorImpl ID)
    (msg : messageImpl) (hreach : Reachable w) (hworking : w.lifetime.state = State.Working) :
    (w.appendExecutionPool.Submit { msg := msg }).1 = true ∧
    (w.AppendAsync msg).appendExecutionPool.accepted
      = w.appendExecutionPool.accepted ++ [{ msg := msg }] ∧
    (w.AppendAsync msg).trace = w.trace ++ [Event.Submit true] ∧
    (w.AppendAsync msg).lifetime
      = { state := State.Working, counter := w.lifetime.counter + 1 } ∧
    (w.AppendAsync msg).admissions = w.admissions ++ [Admission.Add] ∧
    (∀ (ctx : Context) (pick : Bool) (w3 : walAdaptorImpl ID),
      (w.AppendAsync msg).runAsyncTask ctx pick { msg := msg } = Outcome.returned () w3 →
      w3.lifetime = w.lifetime ∧
      w3.admissions = w.admissions
        ++ [Admission.Add, Admission.Add, Admission.Done, Admission.Done]) ∧
    (∀ (w2 w3 : walAdaptorImpl ID) (ctx : Context) (pick : Bool),
      w2.runAsyncTask ctx pick { msg := msg } = Outcome.returned () w3 →
      w3.lifetime = { state := w2.lifetime.state, counter := w2.lifetime.counter - 1 } ∧
      (w3.admissions = w2.admissions ++ [Admission.Add, Admission.Done, Admission.Done] ∨
        w3.admissions = w2.admissions ++ [Admission.Done])) ∧
    (∀ (w2 : walAdaptorImpl ID) (ctx : Context) (pick : Bool),
      select ctx w2.interceptorBuildResult.Interceptor.Ready pick ≠ none →
      ∃ w3, w2.runAsyncTask ctx pick { msg := msg } = Outcome.returned () w3) := by
  have hadd := Add_of_working w.lifetime hworking
  have hpool := pool_live_of_reachable w hreach hworking
  have hasync : w.AppendAsync msg = { w with
      lifetime := { state := State.Working, counter := w.lifetime.counter + 1 }
      admissions := w.admissions ++ [Admission.Add]
      appendExecutionPool := { w.appendExecutionPool with
        accepted := w.appendExecutionPool.accepted ++ [{ msg := msg }] }
      trace := w.trace ++ [Event.Submit true] } := by
    simp [walAdaptorImpl.AppendAsync, hadd, walAdaptorImpl.log, walAdaptorImpl.admit,
      Pool.Submit, hpool, hworking]
  refine ⟨by simp [Pool.Submit, hpool], by rw [hasync], by rw [hasync], by rw [hasync],
    by rw [hasync], ?_, ?_, ?_⟩
  · intro ctx pick w3 h
    have hrun := runAsyncTask_releases_once _ w3 ctx pick _ h
    have hstate : (w.AppendAsync msg).lifetime.state = State.Working := by rw [hasync]
    constructor
    · rw [hrun.1, hasync]
      cases hl : w.lifetime with
      | mk st c =>
        rw [hl] at hworking
        simp only at hworking
        simp [Lifetime.Done, hworking]
    · have hbal := (Append_lifetime_of_working (w.AppendAsync msg) ctx pick msg hstate).1
      unfold walAdaptorImpl.runAsyncTask at h
      cases happ : (w.AppendAsync msg).Append ctx pick msg with
      | blocked w4 => rw [happ] at h; cases h
      | returned r w4 =>
        rw [happ] at h
        cases h
        have h4 := (hbal r w4 happ).2
        rw [hasync] at h4
        simp [walAdaptorImpl.log, walAdaptorImpl.done, h4]
  · intro w2 w3 ctx pick h
    have hrun := runAsyncTask_releases_once w2 w3 ctx pick _ h
    exact ⟨by rw [hrun.1]; rfl, hrun.2.1⟩
  · intro w2 ctx pick hsel
    unfold walAdaptorImpl.runAsyncTask
    by_cases hw2 : w2.lifetime.state = State.Working
    · rcases hs : select ctx w2.interceptorBuildResult.Interceptor.Ready pick with _ | c
      · exact absurd hs hsel
      · cases c with
        | ctxDone e =>
          rw [Append_ctxDone w2 ctx pick msg e hw2 hs]
          exact ⟨_, rfl⟩
        | ready =>
          rcases hres : (w2.interceptorBuildResult.Interceptor.DoAppend ctx msg w2.inner.Append
            (w2.trace ++ [Event.Select, Event.DoAppend msg])).1 with e | id
          · rw [Append_chain_error w2 ctx pick msg e hw2 hs hres]
            exact ⟨_, rfl⟩
          · rw [Append_chain_ok w2 ctx pick msg id hw2 hs hres]
            exact ⟨_, rfl⟩
    · rw [Append_of_not_working w2 ctx pick msg hw2]
      exact ⟨_, rfl⟩

/-- Witness of `AppendAsync_releases_admission_once`: on the fresh sample
adaptor the pool takes the task and the counter goes to 1; the task, run by a
worker, appends, invokes the callback and brings the counter back to 0. -/
theorem AppendAsync_releases_admission_once_witness :
    (plainWAL.AppendAsync sampleMsg).appendExecutionPool.accepted = [{ msg := sampleMsg }] ∧
    (plainWAL.AppendAsync sampleMsg).lifetime = { state := State.Working, counter := 1 } ∧
    (∃ w3, (plainWAL.AppendAsync sampleMsg).runAsyncTask background false { msg := sampleMsg }
        = Outcome.returned () w3 ∧
      w3.lifetime = { state := State.Working, counter := 0 } ∧
      w3.admissions = [Admission.Add, Admission.Add, Admission.Done, Admission.Done]) :=
  have h := AppendAsync_releases_admission_once plainWAL sampleMsg
    (Reachable.adaptImplsToWAL sequentialWAL []) rfl
  ⟨h.2.1, h.2.2.2.1, _, rfl, h.2.2.2.2.2.1 background false _ rfl⟩

end Adaptor
